import Mathlib

/-!
# Verification of the DataPrism Core cloud-storage orchestration layer

A shallow embedding of the TypeScript orchestration layer of
`srnarasim/dataprism-core`: the dependency registry, the CORS-aware HTTP
client, the proxy service, the cache tier, the credential manager, the
cloud file service, the DuckDB cloud-table integration and the engine
facade.  Each definition is translated from the corresponding source
function; theorems at the end settle the behavioural claims about those
functions.

Conventions used throughout:
* JavaScript `Map` objects become association lists that preserve
  insertion order (`set` on an existing key updates in place, a new key
  is appended), matching the iteration order the source relies on.
* Wall-clock reads (`Date.now()`, `performance.now()`) become explicit
  `Nat` parameters; promise rejections become `Except` errors.
* Network effects (`fetch`, proxy requests, loaders) are passed in as
  function parameters describing the outcome of each request.
-/

namespace DataPrism

/-- Cloud provider tags (`types.ts`, `CloudProvider`). -/
inductive CloudProvider
  | awsS3
  | cloudflareR2
  | googleCloudStorage
  | azureBlob
deriving DecidableEq, Repr

/-- `CloudStorageError` (`types.ts`): message, provider and an optional
stable error code. -/
structure CloudStorageErr where
  message : String
  provider : CloudProvider
  code : Option String
deriving DecidableEq, Repr

/-- `DataPrismError` (`types.ts`). -/
structure DataPrismError where
  message : String
  code : String
  source : String
deriving DecidableEq, Repr

/-! ## Association-list model of JavaScript `Map` -/

/-- `Map.get`: first binding of `k`, if any. -/
def lookupAssoc {β : Type} (l : List (String × β)) (k : String) : Option β :=
  match l.find? (fun kv => kv.1 == k) with
  | some kv => some kv.2
  | none => none

/-- `Map.set`: update in place if the key exists, append otherwise
(JavaScript `Map` preserves insertion order on update). -/
def mapSetAssoc {β : Type} (l : List (String × β)) (k : String) (v : β) :
    List (String × β) :=
  if (l.find? (fun kv => kv.1 == k)).isSome then
    l.map (fun kv => if kv.1 == k then (k, v) else kv)
  else l ++ [(k, v)]

/-- `Map.delete`: drop every binding of `k`. -/
def mapDeleteAssoc {β : Type} (l : List (String × β)) (k : String) :
    List (String × β) :=
  l.filter (fun kv => kv.1 ≠ k)

theorem lookupAssoc_mapSetAssoc_self {β : Type} (l : List (String × β))
    (k : String) (v : β) : lookupAssoc (mapSetAssoc l k v) k = some v := by
  unfold lookupAssoc mapSetAssoc
  by_cases h : (l.find? (fun kv => kv.1 == k)).isSome
  · simp only [h, if_true]
    induction l with
    | nil => simp at h
    | cons kv rest ih =>
      by_cases hk : kv.1 == k
      · simp [List.find?, hk]
      · simp only [List.map_cons, if_neg hk]
        have h' : (rest.find? (fun kv => kv.1 == k)).isSome := by
          simpa [List.find?, hk] using h
        simpa [List.find?, hk] using ih h'
  · simp only [h, if_false]
    induction l with
    | nil => simp [List.find?]
    | cons kv rest ih =>
      by_cases hk : kv.1 == k
      · exfalso; apply h; simp [List.find?, hk]
      · have h' : ¬ (rest.find? (fun kv => kv.1 == k)).isSome := by
          intro hc; apply h; simp [List.find?, hk, hc]
        simpa [List.find?, hk] using ih h'

theorem lookupAssoc_mapDeleteAssoc_self {β : Type} (l : List (String × β))
    (k : String) : lookupAssoc (mapDeleteAssoc l k) k = none := by
  unfold lookupAssoc mapDeleteAssoc
  induction l with
  | nil => simp [List.find?]
  | cons kv rest ih =>
    by_cases hk : kv.1 = k
    · simpa [List.filter, hk] using ih
    · have hbeq : (kv.1 == k) = false := by simpa using hk
      simp only [List.filter]
      rw [show (decide (kv.1 ≠ k)) = true by simpa using hk]
      simpa [List.find?, hbeq] using ih

/-! ## Character-list string primitives

The JavaScript string operations the source uses (`toLowerCase`,
`toUpperCase`, `endsWith`, `includes`, `split`, `trim`, decimal
parsing) are modelled over the character list of the string, so that
every definition evaluates on concrete inputs. -/

/-- `String.prototype.toLowerCase`. -/
def strToLower (s : String) : String := ⟨s.data.map Char.toLower⟩

/-- `String.prototype.toUpperCase`. -/
def strToUpper (s : String) : String := ⟨s.data.map Char.toUpper⟩

/-- `String.prototype.endsWith`. -/
def strEndsWith (s suffix : String) : Bool := suffix.data.isSuffixOf s.data

/-- Whether `pat` occurs in the list (vacuously on the empty pattern,
as `String.prototype.includes` behaves). -/
def containsSubAux (pat : List Char) : List Char → Bool
  | [] => pat.isEmpty
  | c :: rest => pat.isPrefixOf (c :: rest) || containsSubAux pat rest

/-- `String.prototype.includes`. -/
def strContains (s pat : String) : Bool := containsSubAux pat.data s.data

/-- The remainder of the list after the first occurrence of `sep`. -/
def afterSubAux (sep : List Char) : List Char → Option (List Char)
  | [] => if sep.isEmpty then some [] else none
  | c :: rest =>
    if sep.isPrefixOf (c :: rest) then some ((c :: rest).drop sep.length)
    else afterSubAux sep rest

/-- `String.prototype.split` on a single-character separator (`acc`
carries the current chunk, reversed). -/
def splitOnCharAux (sep : Char) : List Char → List Char → List (List Char)
  | acc, [] => [acc.reverse]
  | acc, c :: rest =>
    if c = sep then acc.reverse :: splitOnCharAux sep [] rest
    else splitOnCharAux sep (c :: acc) rest

/-- `String.prototype.trim`. -/
def listTrim (l : List Char) : List Char :=
  ((l.dropWhile Char.isWhitespace).reverse.dropWhile Char.isWhitespace).reverse

/-- Decimal parse of a digit string; the `NaN` the source's `parseInt`
produces on anything else becomes `none`. -/
def strToNatOpt (s : String) : Option Nat :=
  if s.data ≠ [] && s.data.all Char.isDigit then
    some (s.data.foldl (fun n c => n * 10 + (c.toNat - 48)) 0)
  else none

/-! ## URL model

The source calls the platform `URL` constructor for `hostname` and
`pathname`.  Modelled from the spec: hostname is the authority up to any
port, pathname the part after the authority up to any query or fragment
(defaulting to `/`), as the WHATWG URL API behaves on the http(s) URLs
the layer handles. -/

/-- Part of the URL after the first `://` scheme separator (the whole
string when no scheme is present). -/
def urlAfterScheme (url : String) : String :=
  match afterSubAux "://".data url.data with
  | some l => ⟨l⟩
  | none => url

/-- `new URL(url).hostname`. -/
def urlHostname (url : String) : String :=
  ⟨((urlAfterScheme url).data.takeWhile
    (fun c => c ≠ '/' && c ≠ '?' && c ≠ '#')).takeWhile (fun c => c ≠ ':')⟩

/-- `new URL(url).pathname`. -/
def urlPathname (url : String) : String :=
  let rest := (urlAfterScheme url).data.dropWhile
    (fun c => c ≠ '/' && c ≠ '?' && c ≠ '#')
  let path := rest.takeWhile (fun c => c ≠ '?' && c ≠ '#')
  if path.isEmpty then "/" else ⟨path⟩

/-- `DataPrismHttpClient.detectProvider` (`http-client.ts`): pure URL
inspection over the lowercased hostname, defaulting to S3. -/
def detectProvider (url : String) : CloudProvider :=
  let hostname := strToLower (urlHostname url)
  if strContains hostname "amazonaws.com" || strContains hostname "s3." then
    .awsS3
  else if strContains hostname "r2.dev" ||
      strContains hostname "r2.cloudflarestorage.com" then
    .cloudflareR2
  else if strContains hostname "googleapis.com" ||
      strContains hostname "storage.cloud.google.com" then
    .googleCloudStorage
  else if strContains hostname "blob.core.windows.net" then
    .azureBlob
  else
    .awsS3

/-! ## Dependency registry (`dependency-registry.ts`)

`DependencyRegistry.executeLoad` runs the loader; on rejection it
increments the retry count and, while `retryCount < maxRetries`,
re-invokes itself after
`options.retryDelay || 1000 * metadata.retryCount` milliseconds
(JavaScript `||`: a caller-supplied `0` is falsy and falls back to the
default), otherwise it rejects.  The recursion is modelled structurally
on `remaining = maxRetries - retryCount`, which is exactly the guard the
source tests. -/

/-- The delay computed in `executeLoad` before the retry whose (already
incremented) retry count is `retryCount`. -/
def retryDelayOf (optRetryDelay : Option Nat) (retryCount : Nat) : Nat :=
  match optRetryDelay with
  | some d => if d = 0 then 1000 * retryCount else d
  | none => 1000 * retryCount

/-- One complete run of `DependencyRegistry.executeLoad`, ignoring the
timeout race: `loaderOk a` is whether the `a`-th loader invocation
resolves, `remaining` is `maxRetries - retryCount`.  Returns whether the
load eventually resolved together with the list of retry delays slept,
in order. -/
def executeLoadGo (loaderOk : Nat → Bool) (optRetryDelay : Option Nat) :
    Nat → Nat → Nat → Bool × List Nat
  | remaining, attempt, retryCount =>
    if loaderOk attempt then (true, [])
    else
      match remaining with
      | 0 => (false, [])
      | r + 1 =>
        let rc := retryCount + 1
        let d := retryDelayOf optRetryDelay rc
        let rest := executeLoadGo loaderOk optRetryDelay r (attempt + 1) rc
        (rest.1, d :: rest.2)

/-- `loadDependency`: the initial `executeLoad` call starts with
`retryCount = 0`, so `remaining = maxRetries`. -/
def executeLoadRun (loaderOk : Nat → Bool) (maxRetries : Nat)
    (optRetryDelay : Option Nat) : Bool × List Nat :=
  executeLoadGo loaderOk optRetryDelay maxRetries 0 0

theorem executeLoadGo_delays_const (loaderOk : Nat → Bool) (d : Nat)
    (hd : d ≠ 0) : ∀ remaining attempt retryCount,
    ∀ x ∈ (executeLoadGo loaderOk (some d) remaining attempt retryCount).2,
      x = d := by
  intro remaining
  induction remaining with
  | zero =>
    intro attempt retryCount x hx
    by_cases h : loaderOk attempt <;> simp [executeLoadGo, h] at hx
  | succ r ih =>
    intro attempt retryCount x hx
    by_cases h : loaderOk attempt
    · simp [executeLoadGo, h] at hx
    · simp only [executeLoadGo, h, if_false, if_neg] at hx
      rcases List.mem_cons.mp hx with h1 | h2
      · simpa [retryDelayOf, hd] using h1
      · exact ih (attempt + 1) (retryCount + 1) x h2

theorem executeLoadGo_delays_default (loaderOk : Nat → Bool) :
    ∀ remaining attempt retryCount i,
    (executeLoadGo loaderOk none remaining attempt retryCount).2[i]? =
      ((executeLoadGo loaderOk none remaining attempt retryCount).2[i]?.map
        (fun _ => 1000 * (retryCount + i + 1))) := by
  intro remaining
  induction remaining with
  | zero =>
    intro attempt retryCount i
    by_cases h : loaderOk attempt <;> simp [executeLoadGo, h]
  | succ r ih =>
    intro attempt retryCount i
    by_cases h : loaderOk attempt
    · simp [executeLoadGo, h]
    · simp only [executeLoadGo, h, if_false]
      match i with
      | 0 => simp [retryDelayOf]
      | i + 1 =>
        have := ih (attempt + 1) (retryCount + 1) i
        simpa [List.getElem?_cons_succ, Nat.add_assoc, Nat.add_comm,
          Nat.add_left_comm] using this

/-! ## Engine facade query path (`plugin-context.ts` engine,
`duckdb-manager.ts`)

`DuckDBManager.query` runs the SQL through the DuckDB connection.  On
success it resolves with `{ data, metadata }`; on failure it catches the
engine error, classifies it through `ErrorHandler.handleError`, and
*resolves* with `{ data: [], metadata, error }`.  `DataPrismEngine.query`
forwards the result, optionally post-processing large results through
the WASM engine, and rethrows unchanged anything `duckdb.query` throws. -/

/-- `QueryMetadata` (`types.ts`). -/
structure QueryMetadata where
  rowCount : Nat
  executionTime : Nat
  memoryUsage : Nat
deriving DecidableEq, Repr

/-- `QueryResult` (`types.ts`): data, metadata, optional embedded error. -/
structure QueryResultT (α : Type) where
  data : List α
  metadata : QueryMetadata
  error : Option DataPrismError
deriving DecidableEq, Repr

/-- `ErrorHandler.handleError` (`error-handler.ts`): keeps the message,
stamps a code `PREFIX_timestamp` from the first three letters of the
uppercased source. -/
def handleError (message source : String) (now : Nat) : DataPrismError :=
  ⟨message, (⟨(strToUpper source).data.take 3⟩ : String) ++ "_" ++ toString now,
    source⟩

/-- `DuckDBManager.query`: `connection` is whether `initialize` has run,
`connResult` the outcome of `connection.query(sql).toArray()`,
`execTime`/`memUsage` the measured metadata, `now` the `Date.now()`
read inside `handleError`.  Engine failures are swallowed into the
resolved result. -/
def duckdbQuery {α : Type} (connection : Bool)
    (connResult : Except String (List α)) (execTime memUsage now : Nat) :
    Except String (QueryResultT α) :=
  if ¬connection then .error "DuckDB not initialized"
  else
    match connResult with
    | .ok rows => .ok ⟨rows, ⟨rows.length, execTime, memUsage⟩, none⟩
    | .error e => .ok ⟨[], ⟨0, execTime, memUsage⟩, some (handleError e "duckdb" now)⟩

/-- `DataPrismEngine.shouldUseWasmOptimization`. -/
def shouldUseWasmOptimization {α : Type} (result : QueryResultT α) : Bool :=
  result.data.length > 1000 || result.metadata.executionTime > 1000

/-- `DataPrismEngine.query`: guards on `initialized`, routes through
`duckdbQuery`, optionally applies the WASM post-processing
(`applyWasmOptimizations` catches its own failures, so it is modelled as
a total function), and rethrows in its `catch` the very error it
caught. -/
def engineQuery {α : Type} (initialized wasmEnabled hasWasmEngine : Bool)
    (wasmProcess : QueryResultT α → QueryResultT α) (connection : Bool)
    (connResult : Except String (List α)) (execTime memUsage now : Nat) :
    Except String (QueryResultT α) :=
  if ¬initialized then .error "Engine not initialized"
  else
    match duckdbQuery connection connResult execTime memUsage now with
    | .error e => .error e
    | .ok result =>
      if wasmEnabled && hasWasmEngine && shouldUseWasmOptimization result then
        .ok (wasmProcess result)
      else .ok result

/-! ## Cache tier (`cache-manager.ts`)

`CacheManager` is a size/count/TTL-bounded map.  `set` estimates the
value size, subtracts the size of any entry it is about to replace,
evicts LRU entries while the size or count caps are exceeded, and then
inserts unconditionally.  `get` deletes and returns null for entries
whose expiration lies strictly in the past (`now > expiration`), and
bumps access statistics otherwise. -/

/-- The value shapes `CacheManager.estimateSize` distinguishes: strings,
byte buffers (`ArrayBuffer`/`Uint8Array` with the given `byteLength`),
other objects (with the given `JSON.stringify` length) and primitives. -/
inductive CacheValue
  | str (s : String)
  | bytes (byteLength : Nat)
  | obj (jsonLength : Nat)
  | prim
deriving DecidableEq, Repr

/-- `CacheManager.estimateSize`. -/
def estimateSize : CacheValue → Nat
  | .str s => s.length * 2
  | .bytes n => n
  | .obj j => j * 2
  | .prim => 100

/-- `CacheEntry` (`cache-manager.ts`). -/
structure CacheEntry where
  data : CacheValue
  timestamp : Nat
  expiration : Nat
  accessCount : Nat
  lastAccessed : Nat
  size : Nat
deriving DecidableEq, Repr

/-- `CacheConfig` (`cache-manager.ts`); the cleanup interval drives a
timer and plays no role here. -/
structure CacheConfig where
  maxSize : Nat
  maxAge : Nat
  maxEntries : Nat
deriving DecidableEq, Repr

/-- The mutable state of a `CacheManager`: the backing `Map` and the
running byte total `currentSize`. -/
structure CacheState where
  entries : List (String × CacheEntry)
  currentSize : Int
deriving DecidableEq, Repr

/-- The empty cache. -/
def emptyCache : CacheState := ⟨[], 0⟩

/-- `CacheManager.delete`: removes the entry and subtracts its size. -/
def cacheDelete (s : CacheState) (key : String) : CacheState :=
  match lookupAssoc s.entries key with
  | some e => ⟨mapDeleteAssoc s.entries key, s.currentSize - e.size⟩
  | none => s

/-- `CacheManager.evictLRU`: scan in insertion order for the entry with
the strictly smallest `lastAccessed`, starting the comparison value at
`Date.now()`; the sentinel key is the empty string (the source skips the
delete when `oldestKey` stayed falsy). -/
def evictLRUKey (now : Nat) (entries : List (String × CacheEntry)) :
    Option String :=
  let res := entries.foldl
    (fun (acc : String × Nat) kv =>
      if kv.2.lastAccessed < acc.2 then (kv.1, kv.2.lastAccessed) else acc)
    ("", now)
  if res.1 = "" then none else some res.1

/-- The first `while` of `evictIfNeeded`: evict while the size cap is
exceeded and the cache is non-empty.  The source loops forever when
`evictLRU` deletes nothing; the model stops at that point (and the fuel,
one unit per entry, is enough for every productive run). -/
def evictSizeLoop (cfg : CacheConfig) (now : Nat) (newSize : Nat) :
    Nat → CacheState → CacheState
  | 0, s => s
  | fuel + 1, s =>
    if s.currentSize + newSize > (cfg.maxSize : Int) ∧ s.entries.length > 0 then
      match evictLRUKey now s.entries with
      | some k => evictSizeLoop cfg now newSize fuel (cacheDelete s k)
      | none => s
    else s

/-- The second `while` of `evictIfNeeded`: evict while the entry count
reaches the cap. -/
def evictCountLoop (cfg : CacheConfig) (now : Nat) :
    Nat → CacheState → CacheState
  | 0, s => s
  | fuel + 1, s =>
    if s.entries.length ≥ cfg.maxEntries then
      match evictLRUKey now s.entries with
      | some k => evictCountLoop cfg now fuel (cacheDelete s k)
      | none => s
    else s

/-- `CacheManager.evictIfNeeded`. -/
def evictIfNeeded (cfg : CacheConfig) (now : Nat) (newSize : Nat)
    (s : CacheState) : CacheState :=
  let s1 := evictSizeLoop cfg now newSize s.entries.length s
  evictCountLoop cfg now s1.entries.length s1

/-- `CacheManager.set`: compute the size estimate and TTL
(`customTtl || maxAge`, JavaScript `||`), subtract the size of an entry
about to be replaced, evict as needed, then insert the new entry and add
its size. -/
def cacheSet (cfg : CacheConfig) (s : CacheState) (key : String)
    (data : CacheValue) (now : Nat) (customTtl : Option Nat) : CacheState :=
  let size := estimateSize data
  let ttl := match customTtl with
    | some t => if t = 0 then cfg.maxAge else t
    | none => cfg.maxAge
  let s1 : CacheState := match lookupAssoc s.entries key with
    | some existing => ⟨s.entries, s.currentSize - existing.size⟩
    | none => s
  let s2 := evictIfNeeded cfg now size s1
  ⟨mapSetAssoc s2.entries key ⟨data, now, now + ttl, 0, now, size⟩,
    s2.currentSize + size⟩

/-- `CacheManager.get`: absent keys give null; entries with
`now > expiration` are deleted and give null; otherwise the access count
and last-access timestamp are bumped and the data returned. -/
def cacheGet (s : CacheState) (key : String) (now : Nat) :
    Option CacheValue × CacheState :=
  match lookupAssoc s.entries key with
  | none => (none, s)
  | some entry =>
    if now > entry.expiration then (none, cacheDelete s key)
    else
      (some entry.data,
        ⟨mapSetAssoc s.entries key
          { entry with accessCount := entry.accessCount + 1, lastAccessed := now },
        s.currentSize⟩)

theorem mapSetAssoc_mem {β : Type} (l : List (String × β)) (k : String)
    (v : β) : ∀ kv ∈ mapSetAssoc l k v, kv.1 = k ∨ kv ∈ l := by
  intro kv hkv
  unfold mapSetAssoc at hkv
  by_cases h : (l.find? (fun kv => kv.1 == k)).isSome
  · simp only [h, if_true] at hkv
    rcases List.mem_map.mp hkv with ⟨kv0, hkv0, heq⟩
    by_cases hk : kv0.1 == k
    · left; rw [← heq]; simp [hk]
    · right; rw [← heq]; simpa [hk] using hkv0
  · simp only [h, if_false] at hkv
    rcases List.mem_append.mp hkv with h1 | h2
    · right; exact h1
    · left; simpa using (List.mem_singleton.mp h2) ▸ rfl

theorem cacheDelete_entries_subset (s : CacheState) (key : String) :
    ∀ kv ∈ (cacheDelete s key).entries, kv ∈ s.entries := by
  intro kv hkv
  unfold cacheDelete at hkv
  cases h : lookupAssoc s.entries key with
  | none => rw [h] at hkv; exact hkv
  | some e =>
    rw [h] at hkv
    exact (List.mem_filter.mp hkv).1

theorem evictSizeLoop_entries_subset (cfg : CacheConfig) (now newSize : Nat) :
    ∀ fuel s, ∀ kv ∈ (evictSizeLoop cfg now newSize fuel s).entries,
      kv ∈ s.entries := by
  intro fuel
  induction fuel with
  | zero => intro s kv hkv; simpa [evictSizeLoop] using hkv
  | succ f ih =>
    intro s kv hkv
    unfold evictSizeLoop at hkv
    by_cases hg : s.currentSize + newSize > (cfg.maxSize : Int) ∧
        s.entries.length > 0
    · simp only [if_pos hg] at hkv
      cases hk : evictLRUKey now s.entries with
      | none => rw [hk] at hkv; exact hkv
      | some k =>
        rw [hk] at hkv
        exact cacheDelete_entries_subset s k kv (ih (cacheDelete s k) kv hkv)
    · simpa [if_neg hg] using hkv

theorem evictCountLoop_entries_subset (cfg : CacheConfig) (now : Nat) :
    ∀ fuel s, ∀ kv ∈ (evictCountLoop cfg now fuel s).entries,
      kv ∈ s.entries := by
  intro fuel
  induction fuel with
  | zero => intro s kv hkv; simpa [evictCountLoop] using hkv
  | succ f ih =>
    intro s kv hkv
    unfold evictCountLoop at hkv
    by_cases hg : s.entries.length ≥ cfg.maxEntries
    · simp only [if_pos hg] at hkv
      cases hk : evictLRUKey now s.entries with
      | none => rw [hk] at hkv; exact hkv
      | some k =>
        rw [hk] at hkv
        exact cacheDelete_entries_subset s k kv (ih (cacheDelete s k) kv hkv)
    · simpa [if_neg hg] using hkv

theorem evictIfNeeded_entries_subset (cfg : CacheConfig) (now newSize : Nat)
    (s : CacheState) : ∀ kv ∈ (evictIfNeeded cfg now newSize s).entries,
      kv ∈ s.entries := by
  intro kv hkv
  unfold evictIfNeeded at hkv
  exact evictSizeLoop_entries_subset cfg now newSize _ s kv
    (evictCountLoop_entries_subset cfg now _ _ kv hkv)

theorem cacheSet_stores (cfg : CacheConfig) (s : CacheState) (key : String)
    (data : CacheValue) (now : Nat) (customTtl : Option Nat) :
    (cacheGet (cacheSet cfg s key data now customTtl) key now).1 = some data := by
  unfold cacheSet cacheGet
  rw [lookupAssoc_mapSetAssoc_self]
  simp

theorem cacheSet_only_evicts (cfg : CacheConfig) (s : CacheState)
    (key : String) (data : CacheValue) (now : Nat) (customTtl : Option Nat) :
    ∀ kv ∈ (cacheSet cfg s key data now customTtl).entries,
      kv.1 = key ∨ kv ∈ s.entries := by
  intro kv hkv
  unfold cacheSet at hkv
  rcases mapSetAssoc_mem _ key _ kv hkv with h | h
  · left; exact h
  · right
    have h2 := evictIfNeeded_entries_subset cfg now (estimateSize data) _ kv h
    cases hl : lookupAssoc s.entries key with
    | none => rw [hl] at h2; exact h2
    | some existing => rw [hl] at h2; exact h2

/-! ## Proxy service (`proxy-service.ts`)

`ProxyService.fetch` serves unexpired cached responses, otherwise picks
the best proxy (`healthScore × priority` maximum over endpoints with
positive health), sends the wrapped request, degrades the chosen
endpoint's health by 10 (floored at 0) on failure and, if some *other*
endpoint is still available, re-enters `fetch` from the top; otherwise
it throws a `PROXY_FAILED` `CloudStorageError`. -/

/-- The slice of a fetch `Response` the layer inspects. -/
structure Response where
  ok : Bool
  status : Nat
  statusText : String
  headers : List (String × String)
deriving DecidableEq, Repr

/-- `ProxyEndpoint` (`types.ts`). -/
structure ProxyEndpoint where
  endpoint : String
  apiKey : Option String
  priority : Int
  healthScore : Int
deriving DecidableEq, Repr

/-- `CachedResponse` (`types.ts`), body elided. -/
structure CachedResponse where
  status : Nat
  timestamp : Nat
  expiration : Nat
deriving DecidableEq, Repr

/-- The mutable state of a `ProxyService`: its endpoint list (endpoint
identity is the list position, mirroring JavaScript object identity in
`exclude.includes`) and its response cache. -/
structure ProxyState where
  proxyEndpoints : List ProxyEndpoint
  cache : List (String × CachedResponse)
deriving DecidableEq, Repr

/-- Pair each element with its position, from a starting offset. -/
def enumFromIdx {α : Type} : Nat → List α → List (Nat × α)
  | _, [] => []
  | n, a :: as => (n, a) :: enumFromIdx (n + 1) as

/-- `ProxyService.selectProxyEndpoint`: among endpoints not excluded and
with positive health, keep the one maximising `healthScore * priority`
(the JavaScript `reduce` only replaces on a strictly greater score, so
the earliest maximum wins).  Returns the endpoint's position. -/
def selectProxyEndpoint (ps : List ProxyEndpoint) (exclude : List Nat) :
    Option Nat :=
  let available := (enumFromIdx 0 ps).filter
    (fun ip => !(exclude.contains ip.1) && decide (0 < ip.2.healthScore))
  match available with
  | [] => none
  | first :: rest =>
    some (rest.foldl
      (fun best cur =>
        if best.2.healthScore * best.2.priority <
            cur.2.healthScore * cur.2.priority then cur else best)
      first).1

/-- The in-place `proxy.healthScore = Math.max(0, proxy.healthScore - 10)`
on the endpoint at position `i`. -/
def decrementHealth (ps : List ProxyEndpoint) (i : Nat) :
    List ProxyEndpoint :=
  (enumFromIdx 0 ps).map
    (fun ip =>
      if ip.1 = i then { ip.2 with healthScore := max 0 (ip.2.healthScore - 10) }
      else ip.2)

/-- `ProxyService.getCacheKey`: `method:url:JSON.stringify(headers)`,
with the serialized headers passed through as `headersRepr`. -/
def getProxyCacheKey (url method headersRepr : String) : String :=
  method ++ ":" ++ url ++ ":" ++ headersRepr

/-- `ProxyService.cacheResponse`: store status with a
`now + cacheDuration` expiration; past 100 entries, drop the expired
ones (`cleanupExpiredCache`). -/
def cacheProxyResponse (cache : List (String × CachedResponse))
    (key : String) (r : Response) (now cacheDuration : Nat) :
    List (String × CachedResponse) :=
  let cache1 := mapSetAssoc cache key ⟨r.status, now, now + cacheDuration⟩
  if cache1.length > 100 then
    cache1.filter (fun kv => decide (now ≤ kv.2.expiration))
  else cache1

/-- The `Response` rebuilt from a cache hit. -/
def responseOfCached (c : CachedResponse) : Response :=
  ⟨200 ≤ c.status ∧ c.status < 300, c.status, "", []⟩

/-- `ProxyService.fetch`.  `net i` is the outcome of the wrapped request
through the endpoint at position `i` (a rejection, or a response whose
non-`ok` status the source turns into a thrown error inside the same
`try`).  Returns the outcome, the final service state and the positions
attempted, in order.  The recursion re-enters `fetch` from the top
exactly as `this.fetch(url, options)` does; the fuel only bounds the
model and one unit per 10 health points is enough for every run. -/
def proxyFetchAux (net : Nat → Except String Response)
    (now cacheDuration : Nat) (url method headersRepr : String) :
    Nat → ProxyState → List Nat →
      Except CloudStorageErr Response × ProxyState × List Nat
  | 0, s, attempts =>
    (.error ⟨"model fuel exhausted", detectProvider url, some "MODEL_FUEL"⟩,
      s, attempts)
  | fuel + 1, s, attempts =>
    let cacheKey := getProxyCacheKey url method headersRepr
    let hit : Option CachedResponse :=
      match lookupAssoc s.cache cacheKey with
      | some cached => if now > cached.expiration then none else some cached
      | none => none
    match hit with
    | some cached => (.ok (responseOfCached cached), s, attempts)
    | none =>
      let s0 : ProxyState :=
        match lookupAssoc s.cache cacheKey with
        | some cached =>
          if now > cached.expiration then
            ⟨s.proxyEndpoints, mapDeleteAssoc s.cache cacheKey⟩
          else s
        | none => s
      match selectProxyEndpoint s0.proxyEndpoints [] with
      | none =>
        (.error ⟨"No available proxy endpoints for CORS-restricted resource",
          detectProvider url, none⟩, s0, attempts)
      | some i =>
        let attempts1 := attempts ++ [i]
        let outcome : Except String Response :=
          match net i with
          | .ok r =>
            if r.ok then .ok r
            else .error ("Proxy request failed: " ++ toString r.status ++
              " " ++ r.statusText)
          | .error e => .error e
        match outcome with
        | .ok r =>
          let cache1 :=
            if method ≠ "HEAD" then
              cacheProxyResponse s0.cache cacheKey r now cacheDuration
            else s0.cache
          (.ok r, ⟨s0.proxyEndpoints, cache1⟩, attempts1)
        | .error msg =>
          let ps1 := decrementHealth s0.proxyEndpoints i
          match selectProxyEndpoint ps1 [i] with
          | some _ =>
            proxyFetchAux net now cacheDuration url method headersRepr fuel
              ⟨ps1, s0.cache⟩ attempts1
          | none =>
            (.error ⟨"Proxy service failed: " ++ msg, detectProvider url,
              some "PROXY_FAILED"⟩, ⟨ps1, s0.cache⟩, attempts1)

theorem enumFromIdx_mem_getElem {α : Type} :
    ∀ (l : List α) (n : Nat) (x : Nat × α), x ∈ enumFromIdx n l →
      ∃ j, x.1 = n + j ∧ l[j]? = some x.2 := by
  intro l
  induction l with
  | nil => intro n x hx; simp [enumFromIdx] at hx
  | cons a as ih =>
    intro n x hx
    rcases List.mem_cons.mp hx with h1 | h2
    · exact ⟨0, by simp [h1], by simp [h1]⟩
    · rcases ih (n + 1) x h2 with ⟨j, hj1, hj2⟩
      exact ⟨j + 1, by omega, by simpa using hj2⟩

theorem enumFromIdx_snd_mem {α : Type} :
    ∀ (l : List α) (n : Nat) (x : Nat × α), x ∈ enumFromIdx n l → x.2 ∈ l := by
  intro l
  induction l with
  | nil => intro n x hx; simp [enumFromIdx] at hx
  | cons a as ih =>
    intro n x hx
    rcases List.mem_cons.mp hx with h1 | h2
    · simp [h1]
    · exact List.mem_cons_of_mem a (ih (n + 1) x h2)

theorem foldl_choice_mem {β : Type} (f : β → β → β)
    (hf : ∀ b c, f b c = b ∨ f b c = c) :
    ∀ (l : List β) (init : β), l.foldl f init = init ∨ l.foldl f init ∈ l := by
  intro l
  induction l with
  | nil => intro init; left; rfl
  | cons a as ih =>
    intro init
    rcases ih (f init a) with h | h
    · rcases hf init a with h2 | h2
      · left; simpa [h2] using h
      · right; rw [List.foldl_cons, h, h2]; exact List.mem_cons_self a as
    · right; exact List.mem_cons_of_mem a h

/-- Selection soundness: a selected position holds an endpoint with
positive health that was not excluded. -/
theorem selectProxyEndpoint_spec (ps : List ProxyEndpoint)
    (exclude : List Nat) (i : Nat)
    (h : selectProxyEndpoint ps exclude = some i) :
    ∃ p, ps[i]? = some p ∧ 0 < p.healthScore ∧ exclude.contains i = false := by
  unfold selectProxyEndpoint at h
  cases hm : (enumFromIdx 0 ps).filter
      (fun ip => !(exclude.contains ip.1) && decide (0 < ip.2.healthScore)) with
  | nil => rw [hm] at h; simp at h
  | cons first rest =>
    rw [hm] at h
    dsimp only at h
    simp only [Option.some.injEq] at h
    have hpick : ∀ (b c : Nat × ProxyEndpoint),
        (if b.2.healthScore * b.2.priority < c.2.healthScore * c.2.priority
          then c else b) = b ∨
        (if b.2.healthScore * b.2.priority < c.2.healthScore * c.2.priority
          then c else b) = c := by
      intro b c
      by_cases hbc : b.2.healthScore * b.2.priority <
          c.2.healthScore * c.2.priority
      · right; simp [hbc]
      · left; simp [hbc]
    have hmem : (rest.foldl
        (fun best cur =>
          if best.2.healthScore * best.2.priority <
              cur.2.healthScore * cur.2.priority then cur else best)
        first) ∈ first :: rest := by
      rcases foldl_choice_mem _ hpick rest first with h1 | h1
      · rw [h1]; exact List.mem_cons_self first rest
      · exact List.mem_cons_of_mem first h1
    rw [← hm] at hmem
    have hmem2 := List.mem_filter.mp hmem
    rcases enumFromIdx_mem_getElem ps 0 _ hmem2.1 with ⟨j, hj1, hj2⟩
    have hcond := hmem2.2
    simp only [Bool.and_eq_true, Bool.not_eq_true', decide_eq_true_eq] at hcond
    refine ⟨_, ?_, hcond.2, ?_⟩
    · rw [← h, hj1]; simpa using hj2
    · rw [← h]; simpa using hcond.1

theorem decrementHealth_nil (i : Nat) : decrementHealth [] i = [] := rfl

theorem enumFromIdx_map_shift {α β : Type} (g : Nat × α → β) :
    ∀ (l : List α) (n : Nat),
      (enumFromIdx (n + 1) l).map g =
        (enumFromIdx n l).map (fun ip => g (ip.1 + 1, ip.2)) := by
  intro l
  induction l with
  | nil => intro n; rfl
  | cons a as ih =>
    intro n
    simp only [enumFromIdx, List.map_cons]
    exact congrArg _ (ih (n + 1))

theorem enumFromIdx_map_snd {α : Type} :
    ∀ (l : List α) (n : Nat), (enumFromIdx n l).map (fun ip => ip.2) = l := by
  intro l
  induction l with
  | nil => intro n; rfl
  | cons a as ih =>
    intro n
    simp only [enumFromIdx, List.map_cons]
    exact congrArg _ (ih (n + 1))

theorem decrementHealth_cons_zero (p : ProxyEndpoint)
    (ps : List ProxyEndpoint) :
    decrementHealth (p :: ps) 0 =
      { p with healthScore := max 0 (p.healthScore - 10) } :: ps := by
  unfold decrementHealth
  simp only [enumFromIdx, List.map_cons, if_pos rfl]
  rw [enumFromIdx_map_shift]
  simp only [Nat.add_eq_zero, and_false, Nat.succ_ne_zero, if_false]
  rw [enumFromIdx_map_snd]
  simp

theorem decrementHealth_cons_succ (p : ProxyEndpoint)
    (ps : List ProxyEndpoint) (i : Nat) :
    decrementHealth (p :: ps) (i + 1) = p :: decrementHealth ps i := by
  unfold decrementHealth
  simp only [enumFromIdx, List.map_cons, Nat.zero_ne_add_one, if_false,
    Nat.succ_ne_zero]
  rw [enumFromIdx_map_shift]
  congr 1
  apply List.map_congr_left
  intro ip _
  by_cases h : ip.1 = i
  · simp [h]
  · have h2 : ¬ (ip.1 + 1 = i + 1) := by omega
    simp [h, h2]

/-- Degrading health keeps every score non-negative (the floor is
`Math.max(0, ·)`). -/
theorem decrementHealth_nonneg (ps : List ProxyEndpoint) (i : Nat)
    (h : ∀ p ∈ ps, 0 ≤ p.healthScore) :
    ∀ p ∈ decrementHealth ps i, 0 ≤ p.healthScore := by
  intro p hp
  unfold decrementHealth at hp
  rcases List.mem_map.mp hp with ⟨ip, hip, heq⟩
  by_cases hidx : ip.1 = i
  · rw [if_pos hidx] at heq
    rw [← heq]
    exact le_max_left 0 _
  · rw [if_neg hidx] at heq
    rw [← heq]
    exact h ip.2 (enumFromIdx_snd_mem ps 0 ip hip)

/-- Degrading the endpoint at `i` sets its score to
`max 0 (healthScore - 10)` and leaves every other endpoint unchanged. -/
theorem decrementHealth_getElem :
    ∀ (ps : List ProxyEndpoint) (i : Nat) (p : ProxyEndpoint),
      ps[i]? = some p →
      (decrementHealth ps i)[i]? =
        some { p with healthScore := max 0 (p.healthScore - 10) } := by
  intro ps
  induction ps with
  | nil => intro i p hp; simp at hp
  | cons q qs ih =>
    intro i p hp
    match i with
    | 0 =>
      simp only [List.getElem?_cons_zero, Option.some.injEq] at hp
      rw [decrementHealth_cons_zero, hp]
      simp
    | i + 1 =>
      simp only [List.getElem?_cons_succ] at hp
      rw [decrementHealth_cons_succ]
      simpa using ih i p hp

/-- Total health, in `Nat`, used as the termination measure of the
rotation recursion. -/
def sumHealthNat (ps : List ProxyEndpoint) : Nat :=
  (ps.map (fun p => p.healthScore.toNat)).sum

theorem sumHealthNat_decrement_lt :
    ∀ (ps : List ProxyEndpoint) (i : Nat) (p : ProxyEndpoint),
      ps[i]? = some p → 0 < p.healthScore →
      sumHealthNat (decrementHealth ps i) < sumHealthNat ps := by
  intro ps
  induction ps with
  | nil => intro i p hp; simp at hp
  | cons q qs ih =>
    intro i p hp hpos
    match i with
    | 0 =>
      simp only [List.getElem?_cons_zero, Option.some.injEq] at hp
      rw [decrementHealth_cons_zero]
      unfold sumHealthNat
      simp only [List.map_cons, List.sum_cons]
      have hq : 0 < q.healthScore := by rw [hp]; exact hpos
      have hlt : (max 0 (q.healthScore - 10)).toNat < q.healthScore.toNat := by
        rw [max_def]
        split <;> omega
      omega
    | i + 1 =>
      simp only [List.getElem?_cons_succ] at hp
      rw [decrementHealth_cons_succ]
      unfold sumHealthNat
      simp only [List.map_cons, List.sum_cons]
      have := ih i p hp hpos
      unfold sumHealthNat at this
      omega

/-- When every proxy request fails, `ProxyService.fetch` (entered on a
cache miss) terminates in a `CloudStorageError`: either the code-less
no-endpoint error or a `PROXY_FAILED` one.  The fuel only needs to
exceed the total health, which strictly decreases at every failure. -/
theorem proxyFetchAux_allFail (net : Nat → Except String Response)
    (hnet : ∀ i r, net i = .ok r → r.ok = false)
    (now cacheDuration : Nat) (url method headersRepr : String) :
    ∀ fuel s attempts,
      lookupAssoc s.cache (getProxyCacheKey url method headersRepr) = none →
      sumHealthNat s.proxyEndpoints < fuel →
      ∃ e, (proxyFetchAux net now cacheDuration url method headersRepr fuel s
          attempts).1 = .error e ∧
        (e.code = none ∨ e.code = some "PROXY_FAILED") := by
  intro fuel
  induction fuel with
  | zero => intro s attempts hc hsum; omega
  | succ f ih =>
    intro s attempts hc hsum
    simp only [proxyFetchAux, hc]
    cases hsel : selectProxyEndpoint s.proxyEndpoints [] with
    | none => exact ⟨_, rfl, Or.inl rfl⟩
    | some i =>
      rcases selectProxyEndpoint_spec _ _ _ hsel with ⟨p, hpi, hppos, _⟩
      have hdec := sumHealthNat_decrement_lt s.proxyEndpoints i p hpi hppos
      cases hn : net i with
      | ok r =>
        have hro := hnet i r hn
        simp only [hn, hro, Bool.false_eq_true, if_false]
        cases hsel2 : selectProxyEndpoint
            (decrementHealth s.proxyEndpoints i) [i] with
        | none => exact ⟨_, rfl, Or.inr rfl⟩
        | some j =>
          exact ih ⟨decrementHealth s.proxyEndpoints i, s.cache⟩
            (attempts ++ [i]) hc (by show sumHealthNat (decrementHealth s.proxyEndpoints i) < f; omega)
      | error msg =>
        simp only [hn]
        cases hsel2 : selectProxyEndpoint
            (decrementHealth s.proxyEndpoints i) [i] with
        | none => exact ⟨_, rfl, Or.inr rfl⟩
        | some j =>
          exact ih ⟨decrementHealth s.proxyEndpoints i, s.cache⟩
            (attempts ++ [i]) hc (by show sumHealthNat (decrementHealth s.proxyEndpoints i) < f; omega)

/-! ## CORS-aware HTTP client (`http-client.ts`)

`DataPrismHttpClient.testCorsSupport` caches a `CorsSupport` verdict per
`hostname + pathname` key; on a miss it issues exactly one `HEAD` probe
and stores the verdict (success means direct access, any rejection means
proxy).  `fetchWithCorsHandling` consults the probe and then fetches
directly or through the proxy service; neither follow-up is a probe. -/

/-- `CorsSupport` (`types.ts`). -/
structure CorsSupport where
  supportsDirectAccess : Bool
  requiresProxy : Bool
  supportedMethods : List String
  maxFileSize : Option Nat
deriving DecidableEq, Repr

/-- `DataPrismHttpClient.getCorsKey`: hostname plus pathname, dropping
the query string. -/
def getCorsKey (url : String) : String :=
  urlHostname url ++ urlPathname url

/-- `parseAllowedMethods`: split the `Access-Control-Allow-Methods`
header on commas (trimmed, uppercased); absence implies `GET`. -/
def parseAllowedMethods (r : Response) : List String :=
  match lookupAssoc r.headers "Access-Control-Allow-Methods" with
  | none => ["GET"]
  | some h => (splitOnCharAux ',' [] h.data).map
      (fun m => strToUpper ⟨listTrim m⟩)

/-- `parseMaxFileSize`: `Content-Length`, else the custom size-limit
headers (decimal parse via `strToNatOpt`). -/
def parseMaxFileSize (r : Response) : Option Nat :=
  match lookupAssoc r.headers "Content-Length" with
  | some v => strToNatOpt v
  | none =>
    match lookupAssoc r.headers "X-Max-File-Size" with
    | some v => strToNatOpt v
    | none =>
      match lookupAssoc r.headers "X-Content-Size-Limit" with
      | some v => strToNatOpt v
      | none => none

/-- The client state: the CORS verdict cache. -/
structure HttpClientState where
  corsCache : List (String × CorsSupport)
deriving DecidableEq, Repr

/-- `DataPrismHttpClient.testCorsSupport`.  `head url` is the outcome of
the timeout-wrapped `HEAD` request.  Returns the verdict, the updated
state and the number of `HEAD` probes issued by this call. -/
def testCorsSupport (head : String → Except String Response)
    (s : HttpClientState) (url : String) :
    CorsSupport × HttpClientState × Nat :=
  let key := getCorsKey url
  match lookupAssoc s.corsCache key with
  | some v => (v, s, 0)
  | none =>
    let v : CorsSupport :=
      match head url with
      | .ok r => ⟨true, false, parseAllowedMethods r, parseMaxFileSize r⟩
      | .error _ => ⟨false, true, [], none⟩
    (v, ⟨mapSetAssoc s.corsCache key v⟩, 1)

/-- The calls a client sees between two `clearCorsCache` calls: direct
CORS probes and CORS-aware fetches (`fetchWithCorsHandling` starts with
`testCorsSupport` and then fetches without probing again). -/
inductive ClientOp
  | test (url : String)
  | fetchCors (url : String)
deriving DecidableEq, Repr

/-- The URL an operation touches. -/
def ClientOp.url : ClientOp → String
  | .test u => u
  | .fetchCors u => u

/-- State transition and probe count of one client operation; both
operations probe exactly when `testCorsSupport` misses its cache. -/
def runClientOp (head : String → Except String Response)
    (s : HttpClientState) (op : ClientOp) : HttpClientState × Nat :=
  let r := testCorsSupport head s op.url
  (r.2.1, r.2.2)

/-- `HEAD` probes charged to cors-cache key `k` along a trace of client
operations. -/
def probesForKey (head : String → Except String Response) :
    HttpClientState → List ClientOp → String → Nat
  | _, [], _ => 0
  | s, op :: ops, k =>
    let r := runClientOp head s op
    (if getCorsKey op.url = k then r.2 else 0) + probesForKey head r.1 ops k

/-! ## Credential manager and cloud file service
(`cloud-storage-service.ts`, `auth-manager.ts`) -/

/-- `CloudCredentials` (`types.ts`). -/
structure CloudCredentials where
  accessKeyId : Option String
  secretAccessKey : Option String
  sessionToken : Option String
  apiKey : Option String
  oauth2Token : Option String
deriving DecidableEq, Repr

/-- The provider auth methods (`types.ts`). -/
inductive AuthMethod
  | iamRole
  | apiKey
  | oauth2
deriving DecidableEq, Repr

/-- `ProviderConfig` (`types.ts`). -/
structure ProviderConfig where
  authMethod : Option AuthMethod
  region : Option String
  accountId : Option String
  credentials : Option CloudCredentials
deriving DecidableEq, Repr

/-- JavaScript truthiness of an optional string: present and
non-empty. -/
def strTruthy : Option String → Bool
  | some v => v ≠ ""
  | none => false

/-- The stubbed AWS signature both services build
(`AWS4-HMAC-SHA256 Credential=<keyId>/...`). -/
def createAwsSignature (credentials : CloudCredentials) : String :=
  "AWS4-HMAC-SHA256 Credential=" ++ credentials.accessKeyId.getD "" ++ "/..."

/-- `CloudStorageService.getAuthHeaders`: empty without credentials;
with credentials, dispatch on the configured auth method (an absent or
unrecognized method matches no `switch` case and yields no headers).
This function never throws. -/
def csGetAuthHeaders (provider : CloudProvider)
    (config : Option ProviderConfig) : List (String × String) :=
  match config with
  | none => []
  | some cfg =>
    match cfg.credentials with
    | none => []
    | some credentials =>
      match cfg.authMethod with
      | some .apiKey =>
        if strTruthy credentials.apiKey then
          if provider = .cloudflareR2 then
            [("X-Auth-Key", credentials.apiKey.getD "")]
          else
            [("Authorization", "Bearer " ++ credentials.apiKey.getD "")]
        else []
      | some .oauth2 =>
        if strTruthy credentials.oauth2Token then
          [("Authorization", "Bearer " ++ credentials.oauth2Token.getD "")]
        else []
      | some .iamRole =>
        if strTruthy credentials.accessKeyId &&
            strTruthy credentials.secretAccessKey then
          [("Authorization", createAwsSignature credentials)]
        else []
      | none => []

/-- Cached OAuth2 token info (`auth-manager.ts`, `TokenInfo`). -/
structure TokenInfo where
  token : String
  expiresAt : Nat
  refreshToken : Option String
deriving DecidableEq, Repr

/-- `AuthManager.getApiKeyHeaders`. -/
def getApiKeyHeaders (provider : CloudProvider)
    (credentials : CloudCredentials) : List (String × String) :=
  match provider with
  | .awsS3 =>
    if strTruthy credentials.accessKeyId &&
        strTruthy credentials.secretAccessKey then
      [("Authorization", createAwsSignature credentials)]
    else []
  | .cloudflareR2 =>
    if strTruthy credentials.apiKey then
      [("X-Auth-Key", credentials.apiKey.getD "")] ++
        (if strTruthy credentials.accessKeyId then
          [("X-Auth-Email", credentials.accessKeyId.getD "")]
        else [])
    else []
  | .googleCloudStorage =>
    if strTruthy credentials.apiKey then
      [("Authorization", "Bearer " ++ credentials.apiKey.getD "")]
    else []
  | .azureBlob =>
    if strTruthy credentials.apiKey then
      [("Authorization", "Bearer " ++ credentials.apiKey.getD "")]
    else []

/-- `AuthManager.getOAuth2Headers`: prefer an unexpired cached token,
else attempt a refresh (`refreshOutcome` is the token-endpoint result;
on failure the credentials token is kept), and throw `NO_OAUTH2_TOKEN`
when no truthy token remains. -/
def getOAuth2Headers (refreshOutcome : Except String String)
    (tokenInfo : Option TokenInfo) (credentials : CloudCredentials)
    (provider : CloudProvider) (now : Nat) :
    Except CloudStorageErr (List (String × String)) :=
  let token : Option String :=
    match tokenInfo with
    | some ti =>
      if now < ti.expiresAt then some ti.token
      else
        match ti.refreshToken with
        | some _ =>
          match refreshOutcome with
          | .ok t => some t
          | .error _ => credentials.oauth2Token
        | none => credentials.oauth2Token
    | none => credentials.oauth2Token
  if strTruthy token then
    .ok [("Authorization", "Bearer " ++ token.getD "")]
  else
    .error ⟨"No valid OAuth2 token available", provider, some "NO_OAUTH2_TOKEN"⟩

/-- `AuthManager.getIAMHeaders`. -/
def getIAMHeaders (provider : CloudProvider)
    (credentials : CloudCredentials) : List (String × String) :=
  if provider = .awsS3 && strTruthy credentials.sessionToken then
    [("Authorization", createAwsSignature credentials),
      ("X-Amz-Security-Token", credentials.sessionToken.getD "")]
  else []

/-- `AuthManager.getAuthHeaders`: empty (resolved, not thrown) when no
credentials are stored for the provider; otherwise dispatch on
`config?.authMethod || 'api-key'` (the `UNSUPPORTED_AUTH_METHOD` default
arm is unreachable through the typed method union). -/
def authGetAuthHeaders (storedCreds : Option CloudCredentials)
    (provider : CloudProvider) (config : Option ProviderConfig)
    (tokenInfo : Option TokenInfo) (refreshOutcome : Except String String)
    (now : Nat) : Except CloudStorageErr (List (String × String)) :=
  match storedCreds with
  | none => .ok []
  | some credentials =>
    match (config.bind (fun c => c.authMethod)).getD .apiKey with
    | .apiKey => .ok (getApiKeyHeaders provider credentials)
    | .oauth2 => getOAuth2Headers refreshOutcome tokenInfo credentials
        provider now
    | .iamRole => .ok (getIAMHeaders provider credentials)

/-- `FileMetadata` (`types.ts`). -/
structure FileMetadata where
  size : Nat
  contentType : String
  lastModified : Option String
  etag : Option String
  provider : CloudProvider
deriving DecidableEq, Repr

/-- The observable part of a `FileHandle` (`cloud-storage-service.ts`):
URL, provider and extracted metadata; the lazy body is held by the
underlying response. -/
structure FileHandleM where
  url : String
  provider : CloudProvider
  metadata : FileMetadata
deriving DecidableEq, Repr

/-- `CloudStorageService.extractMetadata`. -/
def extractMetadata (r : Response) (provider : CloudProvider) :
    FileMetadata :=
  { size := match lookupAssoc r.headers "content-length" with
      | some v => (strToNatOpt v).getD 0
      | none => 0
    contentType := (lookupAssoc r.headers "content-type").getD
      "application/octet-stream"
    lastModified := lookupAssoc r.headers "last-modified"
    etag := lookupAssoc r.headers "etag"
    provider := provider }

/-- The CORS handling mode of `FileAccessOptions`. -/
inductive CorsHandlingOpt
  | direct
  | proxy
  | auto
deriving DecidableEq, Repr

/-- `FileAccessOptions` (`types.ts`), request options reduced to the
headers the service merges. -/
structure FileAccessOptions where
  requestHeaders : List (String × String)
  corsHandling : Option CorsHandlingOpt
deriving DecidableEq, Repr

/-- Which fetch path `getFile` takes: `direct` uses `httpClient.fetch`,
`proxy` uses `proxyService.fetch`, anything else (including no option)
uses `fetchWithCorsHandling`. -/
def resolveFetchMode (opts : FileAccessOptions) : CorsHandlingOpt :=
  match opts.corsHandling with
  | some .direct => .direct
  | some .proxy => .proxy
  | _ => .auto

/-- Errors out of `getFile`: a rejection of the underlying fetch, or the
typed `CloudStorageError` built from a non-2xx response. -/
inductive FetchError
  | network (msg : String)
  | storage (e : CloudStorageErr)
deriving DecidableEq, Repr

/-- The tail of `CloudStorageService.getFile` after the fetch: non-`ok`
responses become `HTTP_<status>` `CloudStorageError`s, `ok` ones a
`FileHandle` with extracted metadata. -/
def processFileResponse (provider : CloudProvider) (url : String)
    (outcome : Except String Response) : Except FetchError FileHandleM :=
  match outcome with
  | .error e => .error (.network e)
  | .ok response =>
    if response.ok then
      .ok ⟨url, provider, extractMetadata response provider⟩
    else
      .error (.storage ⟨"Failed to access file: " ++
        toString response.status ++ " " ++ response.statusText, provider,
        some ("HTTP_" ++ toString response.status)⟩)

/-- `CloudStorageService.getFile`: detect the provider, merge the auth
headers derived from the configured provider into the request headers,
fetch along the selected CORS mode (`net mode headers` is the outcome of
that request) and process the response. -/
def getFile (providers : CloudProvider → Option ProviderConfig)
    (net : CorsHandlingOpt → List (String × String) → Except String Response)
    (url : String) (opts : FileAccessOptions) : Except FetchError FileHandleM :=
  let provider := detectProvider url
  let headers := opts.requestHeaders ++
    csGetAuthHeaders provider (providers provider)
  processFileResponse provider url (net (resolveFetchMode opts) headers)

/-- `config?.credentials` truthiness as `getFile` sees it. -/
def hasCredentials (config : Option ProviderConfig) : Bool :=
  match config with
  | some cfg => cfg.credentials.isSome
  | none => false

/-! ## DuckDB cloud integration (`duckdb-cloud-integration.ts`)

`registerCloudTable` resolves the CORS mode (probing on `auto`), then
either issues `CREATE TABLE <name> AS SELECT ... FROM read_<format>(url)`
directly or fetches the object through the proxy and registers it under
a virtual filename before the `CREATE TABLE`.  Any failure inside the
`try` is wrapped into a `CloudStorageError` with code
`TABLE_REGISTRATION_FAILED`; on success the config is stored in the
`registeredTables` map. -/

/-- The file formats the integration dispatches on. -/
inductive TableFormat
  | parquet
  | csv
  | json
deriving DecidableEq, Repr

/-- The suffix dispatch shared by `registerDirectTable` and
`registerProxiedTable`: `.parquet`, `.csv`, `.json`/`.jsonl` on the
lowercased URL, in source order; anything else is unsupported. -/
def urlFormat (url : String) : Option TableFormat :=
  let u := strToLower url
  if strEndsWith u ".parquet" then some .parquet
  else if strEndsWith u ".csv" then some .csv
  else if strEndsWith u ".json" || strEndsWith u ".jsonl" then some .json
  else none

/-- The virtual-filename suffix used per format. -/
def formatExt : TableFormat → String
  | .parquet => ".parquet"
  | .csv => ".csv"
  | .json => ".json"

/-- Modelled from the spec: the embedded SQL engine is an out-of-scope
collaborator (spec section 2 and section 6).  Its namespace is the set
of table names; `CREATE TABLE <name> AS ...` fails when `<name>` already
exists (standard engine semantics, presupposed by the spec phrase
"re-registration drops and recreates") and creates it otherwise;
`registerFileBuffer`/`registerFileText` bind a virtual filename;
`DROP TABLE IF EXISTS` always succeeds. -/
structure DuckDBState where
  tables : List String
  files : List String
deriving DecidableEq, Repr

/-- `CREATE TABLE <name> AS ...` against the engine. -/
def engineCreateTable (s : DuckDBState) (name : String) :
    Except String DuckDBState :=
  if name ∈ s.tables then
    .error ("Table with name " ++ name ++ " already exists")
  else .ok { s with tables := name :: s.tables }

/-- `registerFileBuffer` / `registerFileText`. -/
def engineRegisterFile (s : DuckDBState) (fname : String) : DuckDBState :=
  { s with files := fname :: s.files }

/-- `CloudTableOptions` (`duckdb-cloud-integration.ts`); the source
field `where` is `whereClause` here. -/
structure CloudTableOptions where
  provider : Option CloudProvider
  corsHandling : Option CorsHandlingOpt
  cacheSchema : Option Bool
  streamingMode : Option Bool
  columns : Option (List String)
  whereClause : Option String
deriving DecidableEq, Repr

/-- `CloudTableConfig` (`duckdb-cloud-integration.ts`). -/
structure CloudTableConfig where
  tableName : String
  url : String
  provider : CloudProvider
  corsHandling : CorsHandlingOpt
  cacheSchema : Bool
  streamingMode : Bool
  options : Option CloudTableOptions
deriving DecidableEq, Repr

/-- The mutable state of a `DuckDBCloudIntegration`: the engine, the
`registeredTables` map and the forced-proxy flag. -/
structure IntegrationState where
  engine : DuckDBState
  registeredTables : List (String × CloudTableConfig)
  proxiedAccess : Bool
deriving DecidableEq, Repr

/-- The outcomes of the external calls one registration makes:
`corsProbe` is `cloudStorage.testCorsSupport(url)` and `fileFetch` the
proxied `cloudStorage.getFile(url)`. -/
structure CloudEnv where
  corsProbe : Except String CorsSupport
  fileFetch : Except String Unit
deriving Repr

/-- `registerDirectTable`: dispatch on the URL suffix and run the
`CREATE TABLE ... FROM read_<format>(url)` statement (column projection
and `WHERE` clause are textual substitutions that do not affect the
engine namespace).  Returns the outcome and the engine state. -/
def registerDirectTable (s : DuckDBState) (config : CloudTableConfig) :
    Except String Unit × DuckDBState :=
  match urlFormat config.url with
  | none =>
    (.error ("Unsupported file format for direct access: " ++ config.url), s)
  | some _ =>
    match engineCreateTable s config.tableName with
    | .ok s2 => (.ok (), s2)
    | .error e => (.error e, s)

/-- `registerProxiedTable`: fetch the object through the proxy, then per
suffix register the body under `<name><ext>` and run
`CREATE TABLE ... FROM read_<format>(<name><ext>)`.  The virtual file
registration precedes the `CREATE TABLE`, so it survives a failing
create. -/
def registerProxiedTable (s : DuckDBState) (config : CloudTableConfig)
    (env : CloudEnv) : Except String Unit × DuckDBState :=
  match env.fileFetch with
  | .error e => (.error e, s)
  | .ok _ =>
    match urlFormat config.url with
    | none =>
      (.error ("Unsupported file format for proxied access: " ++ config.url), s)
    | some f =>
      let s1 := engineRegisterFile s (config.tableName ++ formatExt f)
      match engineCreateTable s1 config.tableName with
      | .ok s2 => (.ok (), s2)
      | .error e => (.error e, s1)

/-- The config construction at the head of `registerCloudTable`:
defaults filled in, then `auto` CORS handling resolved through the probe
(`direct` if supported, `proxy` otherwise or on probe failure). -/
def resolveTableConfig (env : CloudEnv) (tableName url : String)
    (options : Option CloudTableOptions) : CloudTableConfig :=
  let provider := (options.bind (fun o => o.provider)).getD
    (detectProvider url)
  let corsHandling := (options.bind (fun o => o.corsHandling)).getD .auto
  let config0 : CloudTableConfig :=
    ⟨tableName, url, provider, corsHandling,
      (options.bind (fun o => o.cacheSchema)).getD true,
      (options.bind (fun o => o.streamingMode)).getD false, options⟩
  if corsHandling = .auto then
    match env.corsProbe with
    | .ok cs =>
      { config0 with corsHandling :=
          if cs.supportsDirectAccess then .direct else .proxy }
    | .error _ => { config0 with corsHandling := .proxy }
  else config0

/-- `DuckDBCloudIntegration.registerCloudTable`: build the config with
defaults, resolve `auto` CORS handling through the probe (proxy on probe
failure), register via the proxied or direct path (forced-proxy mode
overrides), store the config in `registeredTables` on success, and wrap
any failure into a `TABLE_REGISTRATION_FAILED` `CloudStorageError`. -/
def registerCloudTable (st : IntegrationState) (env : CloudEnv)
    (tableName url : String) (options : Option CloudTableOptions) :
    Except CloudStorageErr Unit × IntegrationState :=
  let provider := (options.bind (fun o => o.provider)).getD
    (detectProvider url)
  let config := resolveTableConfig env tableName url options
  let step :=
    if config.corsHandling = .proxy || st.proxiedAccess then
      registerProxiedTable st.engine config env
    else
      registerDirectTable st.engine config
  match step.1 with
  | .ok _ =>
    (.ok (), ⟨step.2, mapSetAssoc st.registeredTables tableName config,
      st.proxiedAccess⟩)
  | .error msg =>
    (.error ⟨"Failed to register cloud table " ++ tableName ++ ": " ++ msg,
        provider, some "TABLE_REGISTRATION_FAILED"⟩,
      ⟨step.2, st.registeredTables, st.proxiedAccess⟩)

theorem lookupAssoc_cons {β : Type} (x : String × β) (rest : List (String × β))
    (k : String) :
    lookupAssoc (x :: rest) k =
      if x.1 == k then some x.2 else lookupAssoc rest k := by
  unfold lookupAssoc
  cases h : (x.1 == k) <;> simp [List.find?, h]

theorem lookupAssoc_map_replace {β : Type} (k0 k : String) (v : β)
    (hne : k ≠ k0) :
    ∀ l : List (String × β),
      lookupAssoc (l.map (fun kv => if kv.1 == k0 then (k0, v) else kv)) k =
        lookupAssoc l k := by
  intro l
  induction l with
  | nil => rfl
  | cons kv rest ih =>
    simp only [List.map_cons]
    by_cases hk0 : kv.1 == k0
    · have hk0e : kv.1 = k0 := by simpa using hk0
      have hkk : (k0 == k) = false := by
        simp only [beq_eq_false_iff_ne, ne_eq]
        exact fun he => hne he.symm
      have hkvk : (kv.1 == k) = false := by rw [hk0e]; exact hkk
      rw [if_pos hk0, lookupAssoc_cons, lookupAssoc_cons]
      simp only [hkk, hkvk, Bool.false_eq_true, if_false]
      exact ih
    · rw [if_neg hk0, lookupAssoc_cons, lookupAssoc_cons]
      by_cases hkvk : kv.1 == k
      · simp [hkvk]
      · simp only [hkvk, Bool.false_eq_true, if_false]
        exact ih

theorem lookupAssoc_append_single {β : Type} (k0 k : String) (v : β)
    (hne : k ≠ k0) :
    ∀ l : List (String × β),
      lookupAssoc (l ++ [(k0, v)]) k = lookupAssoc l k := by
  intro l
  induction l with
  | nil =>
    simp only [List.nil_append]
    rw [lookupAssoc_cons]
    have hkk : (k0 == k) = false := by
      simp only [beq_eq_false_iff_ne, ne_eq]
      exact fun he => hne he.symm
    simp [hkk]
  | cons kv rest ih =>
    simp only [List.cons_append]
    rw [lookupAssoc_cons, lookupAssoc_cons]
    by_cases hkvk : kv.1 == k
    · simp [hkvk]
    · simp only [hkvk, Bool.false_eq_true, if_false]
      exact ih

theorem lookupAssoc_mapSetAssoc_ne {β : Type} (l : List (String × β))
    (k0 k : String) (v : β) (hne : k ≠ k0) :
    lookupAssoc (mapSetAssoc l k0 v) k = lookupAssoc l k := by
  unfold mapSetAssoc
  by_cases h : (l.find? (fun kv => kv.1 == k0)).isSome
  · rw [if_pos h]
    exact lookupAssoc_map_replace k0 k v hne l
  · rw [if_neg h]
    exact lookupAssoc_append_single k0 k v hne l

/-- A cache hit is served verbatim, with the state untouched and no
probe. -/
theorem testCorsSupport_hit (head : String → Except String Response)
    (s : HttpClientState) (url : String) (v : CorsSupport)
    (h : lookupAssoc s.corsCache (getCorsKey url) = some v) :
    testCorsSupport head s url = (v, s, 0) := by
  unfold testCorsSupport
  dsimp only
  rw [h]

/-- A cache miss issues exactly one probe and caches the verdict. -/
theorem testCorsSupport_miss (head : String → Except String Response)
    (s : HttpClientState) (url : String)
    (h : lookupAssoc s.corsCache (getCorsKey url) = none) :
    ∃ v, testCorsSupport head s url =
      (v, ⟨mapSetAssoc s.corsCache (getCorsKey url) v⟩, 1) := by
  unfold testCorsSupport
  dsimp only
  rw [h]
  exact ⟨_, rfl⟩

/-- Cached verdicts survive any client operation. -/
theorem runClientOp_preserves (head : String → Except String Response)
    (s : HttpClientState) (op : ClientOp) (k : String) (v : CorsSupport)
    (h : lookupAssoc s.corsCache k = some v) :
    lookupAssoc (runClientOp head s op).1.corsCache k = some v := by
  show lookupAssoc (testCorsSupport head s op.url).2.1.corsCache k = some v
  cases hl : lookupAssoc s.corsCache (getCorsKey op.url) with
  | some w => rw [testCorsSupport_hit head s op.url w hl]; exact h
  | none =>
    rcases testCorsSupport_miss head s op.url hl with ⟨w, hw⟩
    rw [hw]
    have hk : k ≠ getCorsKey op.url := by
      intro he; rw [he, hl] at h; exact Option.noConfusion h
    exact (lookupAssoc_mapSetAssoc_ne _ _ _ _ hk).trans h

/-- After any client operation on a URL, that URL's key is cached. -/
theorem runClientOp_caches (head : String → Except String Response)
    (s : HttpClientState) (op : ClientOp) :
    (lookupAssoc (runClientOp head s op).1.corsCache
      (getCorsKey op.url)).isSome := by
  show (lookupAssoc (testCorsSupport head s op.url).2.1.corsCache
    (getCorsKey op.url)).isSome
  cases hl : lookupAssoc s.corsCache (getCorsKey op.url) with
  | some w => rw [testCorsSupport_hit head s op.url w hl]; simp [hl]
  | none =>
    rcases testCorsSupport_miss head s op.url hl with ⟨w, hw⟩
    rw [hw]
    simp [lookupAssoc_mapSetAssoc_self]

/-- A client operation on a cached key issues no probe. -/
theorem runClientOp_probes_hit (head : String → Except String Response)
    (s : HttpClientState) (op : ClientOp) (v : CorsSupport)
    (h : lookupAssoc s.corsCache (getCorsKey op.url) = some v) :
    (runClientOp head s op).2 = 0 := by
  show (testCorsSupport head s op.url).2.2 = 0
  rw [testCorsSupport_hit head s op.url v h]

/-- A client operation issues at most one probe. -/
theorem runClientOp_probes_le (head : String → Except String Response)
    (s : HttpClientState) (op : ClientOp) :
    (runClientOp head s op).2 ≤ 1 := by
  show (testCorsSupport head s op.url).2.2 ≤ 1
  cases hl : lookupAssoc s.corsCache (getCorsKey op.url) with
  | some w => rw [testCorsSupport_hit head s op.url w hl]; exact Nat.zero_le 1
  | none =>
    rcases testCorsSupport_miss head s op.url hl with ⟨w, hw⟩
    rw [hw]

/-- The `HEAD`-probe bound: a trace of probes and CORS-aware fetches
issues no probe at all for a key that is already cached, and at most one
for any key. -/
theorem probesForKey_bound (head : String → Except String Response) :
    ∀ (ops : List ClientOp) (s : HttpClientState) (k : String),
      probesForKey head s ops k ≤
        (if (lookupAssoc s.corsCache k).isSome then 0 else 1) := by
  intro ops
  induction ops with
  | nil => intro s k; simp [probesForKey]
  | cons op rest ih =>
    intro s k
    have hstep : probesForKey head s (op :: rest) k =
        (if getCorsKey op.url = k then (runClientOp head s op).2 else 0) +
          probesForKey head (runClientOp head s op).1 rest k := rfl
    rw [hstep]
    by_cases hk : getCorsKey op.url = k
    · rw [if_pos hk]
      cases hl : lookupAssoc s.corsCache k with
      | some v =>
        have hn : (runClientOp head s op).2 = 0 :=
          runClientOp_probes_hit head s op v (by rw [hk]; exact hl)
        have hs : lookupAssoc (runClientOp head s op).1.corsCache k = some v :=
          runClientOp_preserves head s op k v hl
        have hrec := ih (runClientOp head s op).1 k
        rw [if_pos (by simp [hs])] at hrec
        rw [if_pos (by simp [hl])]
        omega
      | none =>
        have hcached := runClientOp_caches head s op
        rw [hk] at hcached
        have hrec := ih (runClientOp head s op).1 k
        rw [if_pos hcached] at hrec
        have hn := runClientOp_probes_le head s op
        rw [if_neg (by simp [hl])]
        omega
    · rw [if_neg hk]
      cases hl : lookupAssoc s.corsCache k with
      | some v =>
        have hs : lookupAssoc (runClientOp head s op).1.corsCache k = some v :=
          runClientOp_preserves head s op k v hl
        have hrec := ih (runClientOp head s op).1 k
        rw [if_pos (by simp [hs])] at hrec
        rw [if_pos (by simp [hl])]
        omega
      | none =>
        have hrec := ih (runClientOp head s op).1 k
        have hle : probesForKey head (runClientOp head s op).1 rest k ≤ 1 := by
          by_cases h2 : (lookupAssoc (runClientOp head s op).1.corsCache k).isSome
          · rw [if_pos h2] at hrec; omega
          · rw [if_neg h2] at hrec; exact hrec
        rw [if_neg (by simp [hl])]
        omega

theorem resolveTableConfig_tableName (env : CloudEnv) (tableName url : String)
    (options : Option CloudTableOptions) :
    (resolveTableConfig env tableName url options).tableName = tableName := by
  unfold resolveTableConfig
  dsimp only
  split
  · cases env.corsProbe <;> rfl
  · rfl

theorem resolveTableConfig_url (env : CloudEnv) (tableName url : String)
    (options : Option CloudTableOptions) :
    (resolveTableConfig env tableName url options).url = url := by
  unfold resolveTableConfig
  dsimp only
  split
  · cases env.corsProbe <;> rfl
  · rfl

theorem registerDirectTable_existing (s : DuckDBState)
    (config : CloudTableConfig) (h : config.tableName ∈ s.tables) :
    ∃ m, registerDirectTable s config = (.error m, s) := by
  unfold registerDirectTable
  cases hf : urlFormat config.url with
  | none => exact ⟨_, rfl⟩
  | some f =>
    unfold engineCreateTable
    rw [if_pos h]
    exact ⟨_, rfl⟩

theorem registerProxiedTable_existing (s : DuckDBState)
    (config : CloudTableConfig) (env : CloudEnv)
    (h : config.tableName ∈ s.tables) :
    ∃ m s2, registerProxiedTable s config env = (.error m, s2) ∧
      s2.tables = s.tables := by
  unfold registerProxiedTable
  cases hff : env.fileFetch with
  | error e => exact ⟨_, _, rfl, rfl⟩
  | ok u =>
    dsimp only
    cases hf : urlFormat config.url with
    | none => exact ⟨_, _, rfl, rfl⟩
    | some f =>
      dsimp only
      unfold engineCreateTable engineRegisterFile
      dsimp only
      rw [if_pos (show config.tableName ∈ s.tables from h)]
      exact ⟨_, _, rfl, rfl⟩

theorem registerStep_existing (s : DuckDBState) (config : CloudTableConfig)
    (env : CloudEnv) (b : Bool) (h : config.tableName ∈ s.tables) :
    ∃ m s2, (if b then registerProxiedTable s config env
        else registerDirectTable s config) = (.error m, s2) ∧
      s2.tables = s.tables := by
  cases b with
  | true =>
    rcases registerProxiedTable_existing s config env h with ⟨m, s2, h1, h2⟩
    exact ⟨m, s2, by simpa using h1, h2⟩
  | false =>
    rcases registerDirectTable_existing s config h with ⟨m, h1⟩
    exact ⟨m, s, by simpa using h1, rfl⟩

theorem engineCreateTable_ok (s s2 : DuckDBState) (name : String)
    (h : engineCreateTable s name = .ok s2) :
    s2.tables = name :: s.tables := by
  unfold engineCreateTable at h
  by_cases hm : name ∈ s.tables
  · rw [if_pos hm] at h; exact Except.noConfusion h
  · rw [if_neg hm] at h
    cases h
    rfl

theorem registerStep_ok (s : DuckDBState) (config : CloudTableConfig)
    (env : CloudEnv) (b : Bool) (s2 : DuckDBState)
    (h : (if b then registerProxiedTable s config env
        else registerDirectTable s config) = (.ok (), s2)) :
    s2.tables = config.tableName :: s.tables := by
  cases b with
  | true =>
    simp only [if_true] at h
    unfold registerProxiedTable at h
    cases hff : env.fileFetch with
    | error e => rw [hff] at h; simp at h
    | ok u =>
      rw [hff] at h
      dsimp only at h
      cases hf : urlFormat config.url with
      | none => rw [hf] at h; simp at h
      | some f =>
        rw [hf] at h
        dsimp only at h
        cases hc : engineCreateTable
            (engineRegisterFile s (config.tableName ++ formatExt f))
            config.tableName with
        | ok s3 =>
          rw [hc] at h
          dsimp only at h
          have hs : s3 = s2 := by
            simpa using congrArg Prod.snd h
          rw [← hs]
          have := engineCreateTable_ok _ _ _ hc
          simpa [engineRegisterFile] using this
        | error e => rw [hc] at h; simp at h
  | false =>
    simp only [Bool.false_eq_true, if_false] at h
    unfold registerDirectTable at h
    cases hf : urlFormat config.url with
    | none => rw [hf] at h; simp at h
    | some f =>
      rw [hf] at h
      dsimp only at h
      cases hc : engineCreateTable s config.tableName with
      | ok s3 =>
        rw [hc] at h
        dsimp only at h
        have hs : s3 = s2 := by
          simpa using congrArg Prod.snd h
        rw [← hs]
        exact engineCreateTable_ok _ _ _ hc
      | error e => rw [hc] at h; simp at h

theorem registerStep_unsupported (s : DuckDBState)
    (config : CloudTableConfig) (env : CloudEnv) (b : Bool)
    (h : urlFormat config.url = none) :
    ∃ m s2, (if b then registerProxiedTable s config env
        else registerDirectTable s config) = (.error m, s2) := by
  cases b with
  | true =>
    simp only [if_true]
    unfold registerProxiedTable
    cases env.fileFetch with
    | error e => exact ⟨_, _, rfl⟩
    | ok u => rw [h]; exact ⟨_, _, rfl⟩
  | false =>
    simp only [Bool.false_eq_true, if_false]
    unfold registerDirectTable
    rw [h]
    exact ⟨_, _, rfl⟩

/-- A `registerCloudTable` on a name the engine already has fails with a
`TABLE_REGISTRATION_FAILED` error and leaves both the registry map and
the engine's table namespace unchanged (only a proxied attempt's virtual
file registration may linger). -/
theorem registerCloudTable_existing (st : IntegrationState) (env : CloudEnv)
    (tableName url : String) (options : Option CloudTableOptions)
    (h : tableName ∈ st.engine.tables) :
    ∃ e, (registerCloudTable st env tableName url options).1 = .error e ∧
      e.code = some "TABLE_REGISTRATION_FAILED" ∧
      (registerCloudTable st env tableName url options).2.registeredTables =
        st.registeredTables ∧
      (registerCloudTable st env tableName url options).2.engine.tables =
        st.engine.tables := by
  have hname := resolveTableConfig_tableName env tableName url options
  rcases registerStep_existing st.engine
      (resolveTableConfig env tableName url options) env
      (decide ((resolveTableConfig env tableName url options).corsHandling =
        .proxy) || st.proxiedAccess) (by rw [hname]; exact h)
    with ⟨m, s2, hstep, htab⟩
  unfold registerCloudTable
  dsimp only
  rw [hstep]
  exact ⟨_, rfl, rfl, rfl, htab⟩

/-- A successful `registerCloudTable` leaves the table present in the
engine namespace and the resolved config stored under the name. -/
theorem registerCloudTable_ok (st : IntegrationState) (env : CloudEnv)
    (tableName url : String) (options : Option CloudTableOptions)
    (st2 : IntegrationState)
    (h : registerCloudTable st env tableName url options = (.ok (), st2)) :
    tableName ∈ st2.engine.tables ∧
    st2.registeredTables = mapSetAssoc st.registeredTables tableName
      (resolveTableConfig env tableName url options) := by
  have hname := resolveTableConfig_tableName env tableName url options
  unfold registerCloudTable at h
  dsimp only at h
  cases hstep : (if (decide ((resolveTableConfig env tableName url
        options).corsHandling = .proxy) || st.proxiedAccess) = true then
      registerProxiedTable st.engine
        (resolveTableConfig env tableName url options) env
    else
      registerDirectTable st.engine
        (resolveTableConfig env tableName url options)) with
  | mk res s2 =>
    rw [hstep] at h
    cases res with
    | error m => simp at h
    | ok u =>
      cases h
      constructor
      · have := registerStep_ok st.engine
          (resolveTableConfig env tableName url options) env _ s2 (by
            rw [hstep])
        dsimp only
        rw [this, hname]
        exact List.mem_cons_self _ _
      · rfl

/-- A `registerCloudTable` on a URL with an unsupported suffix fails
with a `TABLE_REGISTRATION_FAILED` error on every path. -/
theorem registerCloudTable_unsupported (st : IntegrationState)
    (env : CloudEnv) (tableName url : String)
    (options : Option CloudTableOptions) (h : urlFormat url = none) :
    ∃ e, (registerCloudTable st env tableName url options).1 = .error e ∧
      e.code = some "TABLE_REGISTRATION_FAILED" := by
  have hurl := resolveTableConfig_url env tableName url options
  rcases registerStep_unsupported st.engine
      (resolveTableConfig env tableName url options) env
      (decide ((resolveTableConfig env tableName url options).corsHandling =
        .proxy) || st.proxiedAccess) (by rw [hurl]; exact h)
    with ⟨m, s2, hstep⟩
  unfold registerCloudTable
  dsimp only
  rw [hstep]
  exact ⟨_, rfl, rfl⟩

/-- A full `ProxyService.fetch` run keeps every endpoint's health score
non-negative: the only mutation is the `Math.max(0, · - 10)` decay. -/
theorem proxyFetchAux_health_nonneg (net : Nat → Except String Response)
    (now cacheDuration : Nat) (url method headersRepr : String) :
    ∀ fuel s attempts, (∀ p ∈ s.proxyEndpoints, 0 ≤ p.healthScore) →
      ∀ p ∈ (proxyFetchAux net now cacheDuration url method headersRepr fuel
        s attempts).2.1.proxyEndpoints, 0 ≤ p.healthScore := by
  intro fuel
  induction fuel with
  | zero => intro s attempts h; exact h
  | succ f ih =>
    intro s attempts h
    simp only [proxyFetchAux]
    cases hl : lookupAssoc s.cache (getProxyCacheKey url method headersRepr) with
    | some cached =>
      by_cases hexp : now > cached.expiration
      · simp only [if_pos hexp]
        cases hsel : selectProxyEndpoint s.proxyEndpoints [] with
        | none => exact h
        | some i =>
          cases hn : net i with
          | ok r =>
            by_cases hro : r.ok = true
            · simp only [hn, hro, if_true]
              exact h
            · simp only [hn, hro, Bool.false_eq_true, if_false]
              cases hsel2 : selectProxyEndpoint
                  (decrementHealth s.proxyEndpoints i) [i] with
              | none => exact decrementHealth_nonneg s.proxyEndpoints i h
              | some j =>
                exact ih ⟨decrementHealth s.proxyEndpoints i, _⟩ _
                  (decrementHealth_nonneg s.proxyEndpoints i h)
          | error msg =>
            simp only [hn]
            cases hsel2 : selectProxyEndpoint
                (decrementHealth s.proxyEndpoints i) [i] with
            | none => exact decrementHealth_nonneg s.proxyEndpoints i h
            | some j =>
              exact ih ⟨decrementHealth s.proxyEndpoints i, _⟩ _
                (decrementHealth_nonneg s.proxyEndpoints i h)
      · simp only [if_neg hexp]
        exact h
    | none =>
      cases hsel : selectProxyEndpoint s.proxyEndpoints [] with
      | none => exact h
      | some i =>
        cases hn : net i with
        | ok r =>
          by_cases hro : r.ok = true
          · simp only [hn, hro, if_true]
            exact h
          · simp only [hn, hro, Bool.false_eq_true, if_false]
            cases hsel2 : selectProxyEndpoint
                (decrementHealth s.proxyEndpoints i) [i] with
            | none => exact decrementHealth_nonneg s.proxyEndpoints i h
            | some j =>
              exact ih ⟨decrementHealth s.proxyEndpoints i, _⟩ _
                (decrementHealth_nonneg s.proxyEndpoints i h)
        | error msg =>
          simp only [hn]
          cases hsel2 : selectProxyEndpoint
              (decrementHealth s.proxyEndpoints i) [i] with
          | none => exact decrementHealth_nonneg s.proxyEndpoints i h
          | some j =>
            exact ih ⟨decrementHealth s.proxyEndpoints i, _⟩ _
              (decrementHealth_nonneg s.proxyEndpoints i h)

/-! ## Claim theorems

Concrete fixtures shared by the counterexamples and witnesses below. -/

/-- A CSV object URL on S3. -/
def demoCsvUrl : String := "https://bucket.s3.amazonaws.com/data.csv"

/-- An object URL with an unsupported suffix. -/
def demoTxtUrl : String := "https://bucket.s3.amazonaws.com/data.txt"

/-- An environment whose CORS probe reports direct access and whose
proxied fetch succeeds. -/
def demoEnv : CloudEnv := ⟨.ok ⟨true, false, ["GET"], none⟩, .ok ()⟩

/-- A fresh integration: empty engine, empty registry, no forced
proxy. -/
def demoIntegration : IntegrationState := ⟨⟨[], []⟩, [], false⟩

/-- C1 counterexample: registering `t` for a CSV URL succeeds, but a
second `registerCloudTable` on the same name and URL does not succeed by
dropping and recreating — it fails with `TABLE_REGISTRATION_FAILED`
because the `CREATE TABLE` is reissued against the existing table. -/
theorem registerCloudTable_not_idempotent_cex :
    (registerCloudTable demoIntegration demoEnv "t" demoCsvUrl none).1 =
      .ok () ∧
    (registerCloudTable
        (registerCloudTable demoIntegration demoEnv "t" demoCsvUrl none).2
        demoEnv "t" demoCsvUrl none).1 =
      .error ⟨"Failed to register cloud table t: Table with name t already exists",
        .awsS3, some "TABLE_REGISTRATION_FAILED"⟩ :=
  ⟨rfl, rfl⟩

/-- C1 (amended): `registerCloudTable` is not idempotent per table name:
after a successful registration, a second call on the same name and URL
reissues the `CREATE TABLE` without any drop, fails with a
`TABLE_REGISTRATION_FAILED` `CloudStorageError`, and leaves the registry
entry and the engine's table namespace exactly as the first registration
left them (a proxied retry may additionally register a virtual file). -/
theorem registerCloudTable_reregistration_fails (st st1 : IntegrationState)
    (env env2 : CloudEnv) (tableName url : String)
    (opts : Option CloudTableOptions)
    (h1 : registerCloudTable st env tableName url opts = (.ok (), st1)) :
    tableName ∈ st1.engine.tables ∧
    ∃ e, (registerCloudTable st1 env2 tableName url opts).1 = .error e ∧
      e.code = some "TABLE_REGISTRATION_FAILED" ∧
      (registerCloudTable st1 env2 tableName url opts).2.registeredTables =
        st1.registeredTables ∧
      (registerCloudTable st1 env2 tableName url opts).2.engine.tables =
        st1.engine.tables := by
  have hmem := (registerCloudTable_ok st env tableName url opts st1 h1).1
  exact ⟨hmem, registerCloudTable_existing st1 env2 tableName url opts hmem⟩

/-- C1 witness: the amended theorem applied to the concrete first
registration of the counterexample. -/
theorem registerCloudTable_reregistration_fails_witness :
    "t" ∈ (registerCloudTable demoIntegration demoEnv "t" demoCsvUrl
      none).2.engine.tables ∧
    ∃ e, (registerCloudTable
        (registerCloudTable demoIntegration demoEnv "t" demoCsvUrl none).2
        demoEnv "t" demoCsvUrl none).1 = .error e ∧
      e.code = some "TABLE_REGISTRATION_FAILED" ∧
      (registerCloudTable
          (registerCloudTable demoIntegration demoEnv "t" demoCsvUrl none).2
          demoEnv "t" demoCsvUrl none).2.registeredTables =
        (registerCloudTable demoIntegration demoEnv "t" demoCsvUrl
          none).2.registeredTables ∧
      (registerCloudTable
          (registerCloudTable demoIntegration demoEnv "t" demoCsvUrl none).2
          demoEnv "t" demoCsvUrl none).2.engine.tables =
        (registerCloudTable demoIntegration demoEnv "t" demoCsvUrl
          none).2.engine.tables :=
  registerCloudTable_reregistration_fails demoIntegration _ demoEnv demoEnv
    "t" demoCsvUrl none rfl

/-- C2 counterexample: a SQL statement whose engine execution fails does
not make `query` reject — `DataPrismEngine.query` resolves to a result
object with empty data and the classified error embedded, because
`DuckDBManager.query` catches the engine error. -/
theorem engineQuery_error_resolves_cex :
    engineQuery (α := Unit) true false false id true (.error "Parser Error")
      5 0 7 =
    .ok ⟨[], ⟨0, 5, 0⟩, some ⟨"Parser Error", "DUC_7", "duckdb"⟩⟩ := rfl

/-- C2 (amended): every error the SQL engine raises while servicing
`DataPrismEngine.query(sql)` is swallowed by `DuckDBManager.query`: with
WASM optimizations disabled (the default), `query` resolves to a
`QueryResult` with empty data and the error classified by
`ErrorHandler.handleError` under source `duckdb`; it does not reject. -/
theorem engineQuery_engine_error_embedded {α : Type} (e : String)
    (hasWasm : Bool) (wasmProcess : QueryResultT α → QueryResultT α)
    (execTime memUsage now : Nat) :
    engineQuery true false hasWasm wasmProcess true (.error e) execTime
        memUsage now =
      .ok ⟨[], ⟨0, execTime, memUsage⟩, some (handleError e "duckdb" now)⟩ :=
  rfl

/-- C5 counterexample: with caller-supplied `retryDelay = 10` and a
loader that succeeds on its third invocation (`maxRetries = 3`), the
retry delays are `[10, 10]` — a cumulative 20 ms, not the claimed
`10 + 20 = 30` ms, because a supplied `retryDelay` is used as a constant
and never multiplied by the retry count. -/
theorem executeLoad_constant_delay_cex :
    executeLoadRun (fun a => decide (2 ≤ a)) 3 (some 10) = (true, [10, 10]) ∧
    10 + 10 < 30 := by decide

/-- C5 (amended): in `DependencyRegistry.executeLoad`, a caller-supplied
non-zero `retryDelay` is used unchanged for every retry, while only the
default delay scales as `1000 × retryCount`; with `retryDelay = 10` and
success on the third attempt the run succeeds after delays `[10, 10]`,
a cumulative 20 ms. -/
theorem executeLoad_retryDelay_semantics :
    (∀ (loaderOk : Nat → Bool) (maxRetries d : Nat), d ≠ 0 →
      ∀ x ∈ (executeLoadRun loaderOk maxRetries (some d)).2, x = d) ∧
    (∀ (loaderOk : Nat → Bool) (maxRetries i : Nat),
      (executeLoadRun loaderOk maxRetries none).2[i]? =
        ((executeLoadRun loaderOk maxRetries none).2[i]?.map
          (fun _ => 1000 * (i + 1)))) ∧
    executeLoadRun (fun a => decide (2 ≤ a)) 3 (some 10) = (true, [10, 10]) := by
  refine ⟨?_, ?_, by decide⟩
  · intro loaderOk maxRetries d hd
    exact executeLoadGo_delays_const loaderOk d hd maxRetries 0 0
  · intro loaderOk maxRetries i
    have := executeLoadGo_delays_default loaderOk maxRetries 0 0 i
    simpa using this

/-- C5 witness: the amended theorem applied to a loader that always
fails with `maxRetries = 2` and `retryDelay = 7`. -/
theorem executeLoad_retryDelay_semantics_witness :
    (executeLoadRun (fun _ => false) 2 (some 7)).2 = [7, 7] ∧
    ∀ x ∈ (executeLoadRun (fun _ => false) 2 (some 7)).2, x = 7 :=
  ⟨by decide,
    executeLoad_retryDelay_semantics.1 (fun _ => false) 2 7 (by decide)⟩

/-- C6 counterexample: a value of estimated size 20 inserted into a
cache whose `maxSize` is 10 *is* stored, and `get` returns it rather
than `null`. -/
theorem cacheSet_oversized_stored_cex :
    estimateSize (.bytes 20) = 20 ∧ 10 < 20 ∧
    (cacheGet (cacheSet ⟨10, 1000, 5⟩ emptyCache "k" (.bytes 20) 0 none)
      "k" 0).1 = some (.bytes 20) := by decide

/-- C6 (amended): `CacheManager.set` never throws and, besides the entry
it inserts, at most evicts existing entries; but it always stores the
value — even one whose estimated size exceeds `maxSize` — so a
subsequent `get(key)` at the insertion time returns the value, not
`null`. -/
theorem cacheSet_oversized_semantics :
    (∀ (cfg : CacheConfig) (s : CacheState) (key : String)
        (data : CacheValue) (now : Nat) (customTtl : Option Nat),
      (cacheGet (cacheSet cfg s key data now customTtl) key now).1 =
        some data) ∧
    (∀ (cfg : CacheConfig) (s : CacheState) (key : String)
        (data : CacheValue) (now : Nat) (customTtl : Option Nat),
      ∀ kv ∈ (cacheSet cfg s key data now customTtl).entries,
        kv.1 = key ∨ kv ∈ s.entries) :=
  ⟨cacheSet_stores, cacheSet_only_evicts⟩

/-- C6 witness: the amended theorem applied to the single entry of a
concrete insertion into the empty cache. -/
theorem cacheSet_oversized_semantics_witness :
    ("k", (⟨.prim, 0, 50, 0, 0, 100⟩ : CacheEntry)).1 = "k" ∨
      ("k", (⟨.prim, 0, 50, 0, 0, 100⟩ : CacheEntry)) ∈
        emptyCache.entries :=
  cacheSet_oversized_semantics.2 ⟨1000, 50, 5⟩ emptyCache "k" .prim 0 none
    ("k", ⟨.prim, 0, 50, 0, 0, 100⟩) (by decide)

/-- C7 counterexample: an entry whose expiration is 100 is still served
by `get` when queried exactly at time 100 — the source only expires on
`now > expiration`, so "at the expiration time" is served, not
removed. -/
theorem cacheGet_boundary_cex :
    lookupAssoc (cacheSet ⟨1000000, 100, 5⟩ emptyCache "k" .prim 0
      none).entries "k" = some ⟨.prim, 0, 100, 0, 0, 100⟩ ∧
    (cacheGet (cacheSet ⟨1000000, 100, 5⟩ emptyCache "k" .prim 0 none)
      "k" 100).1 = some .prim := by decide

/-- C7 (amended): `CacheManager.get` returns a non-null value exactly
when the entry exists and the current time is *at most* its expiration
(`now = expiration` is still served); only strictly after the expiration
is the entry removed and `null` returned. -/
theorem cacheGet_expiration_boundary (s : CacheState) (key : String)
    (now : Nat) :
    ((cacheGet s key now).1 ≠ none ↔
      ∃ e, lookupAssoc s.entries key = some e ∧ now ≤ e.expiration) ∧
    (∀ e, lookupAssoc s.entries key = some e → e.expiration < now →
      (cacheGet s key now).1 = none ∧
      lookupAssoc ((cacheGet s key now).2).entries key = none) := by
  unfold cacheGet
  cases hl : lookupAssoc s.entries key with
  | none =>
    refine ⟨⟨fun hne => absurd rfl hne, ?_⟩, fun e he => Option.noConfusion he⟩
    rintro ⟨e, he, _⟩
    exact Option.noConfusion he
  | some entry =>
    by_cases hexp : now > entry.expiration
    · refine ⟨⟨fun hne => ?_, ?_⟩, fun e he hlt => ?_⟩
      · exact absurd (by simp [if_pos hexp]) hne
      · rintro ⟨e, he, hle⟩
        injection he with he'
        rw [← he'] at hle
        omega
      · refine ⟨by simp [if_pos hexp], ?_⟩
        simp only [if_pos hexp]
        unfold cacheDelete
        rw [hl]
        exact lookupAssoc_mapDeleteAssoc_self s.entries key
    · refine ⟨⟨fun _ => ⟨entry, rfl, by omega⟩, fun _ => ?_⟩,
        fun e he hlt => ?_⟩
      · simp [if_neg hexp]
      · injection he with he'
        rw [← he'] at hlt
        omega

/-- C7 witness: the amended theorem applied to a concrete cache holding
an entry expired strictly before the query time. -/
theorem cacheGet_expiration_boundary_witness :
    (cacheGet ⟨[("k", ⟨.prim, 0, 50, 0, 0, 100⟩)], 100⟩ "k" 60).1 = none ∧
    lookupAssoc ((cacheGet ⟨[("k", ⟨.prim, 0, 50, 0, 0, 100⟩)], 100⟩
      "k" 60).2).entries "k" = none :=
  (cacheGet_expiration_boundary ⟨[("k", ⟨.prim, 0, 50, 0, 0, 100⟩)], 100⟩
    "k" 60).2 ⟨.prim, 0, 50, 0, 0, 100⟩ (by decide) (by decide)

/-- C8 counterexample: registering a `.txt` URL fails, but the surfaced
error code is `TABLE_REGISTRATION_FAILED` — the unsupported-format
failure is wrapped by `registerCloudTable` — not `UNSUPPORTED_FORMAT`. -/
theorem registerCloudTable_unsupported_suffix_cex :
    urlFormat demoTxtUrl = none ∧
    (registerCloudTable demoIntegration demoEnv "t" demoTxtUrl none).1 =
      .error ⟨"Failed to register cloud table t: Unsupported file format for direct access: https://bucket.s3.amazonaws.com/data.txt",
        .awsS3, some "TABLE_REGISTRATION_FAILED"⟩ ∧
    some "TABLE_REGISTRATION_FAILED" ≠ some "UNSUPPORTED_FORMAT" :=
  ⟨by decide, rfl, by decide⟩

/-- C8 (amended): for every URL whose suffix is none of `.parquet`,
`.csv`, `.json`, `.jsonl`, `registerCloudTable(name, url)` fails with a
`CloudStorageError` whose code is `TABLE_REGISTRATION_FAILED`, the
unsupported-format (or fetch) failure being wrapped. -/
theorem registerCloudTable_unsupported_suffix (st : IntegrationState)
    (env : CloudEnv) (tableName url : String)
    (options : Option CloudTableOptions) (h : urlFormat url = none) :
    ∃ e, (registerCloudTable st env tableName url options).1 = .error e ∧
      e.code = some "TABLE_REGISTRATION_FAILED" :=
  registerCloudTable_unsupported st env tableName url options h

/-- C8 witness: the amended theorem applied to the `.txt` URL. -/
theorem registerCloudTable_unsupported_suffix_witness :
    ∃ e, (registerCloudTable demoIntegration demoEnv "t" demoTxtUrl
        none).1 = .error e ∧
      e.code = some "TABLE_REGISTRATION_FAILED" :=
  registerCloudTable_unsupported_suffix demoIntegration demoEnv "t"
    demoTxtUrl none (by decide)

/-- C3: after one `testCorsSupport(url)` completes, every later
`testCorsSupport` or `fetchWithCorsHandling` on any URL with the same
hostname and pathname (the key ignores query strings) is served from the
cache — the cached verdict is returned verbatim and no further `HEAD`
probe is issued — so along any trace of client calls (before
`clearCorsCache`) at most one `HEAD` probe is issued per (host, path)
key, and none at all for a key already cached. -/
theorem corsProbe_at_most_once :
    (∀ (head : String → Except String Response) (s : HttpClientState)
        (url : String) (v : CorsSupport),
      lookupAssoc s.corsCache (getCorsKey url) = some v →
      testCorsSupport head s url = (v, s, 0)) ∧
    (∀ (head : String → Except String Response) (s : HttpClientState)
        (ops : List ClientOp) (k : String),
      (lookupAssoc s.corsCache k).isSome = true →
      probesForKey head s ops k = 0) ∧
    (∀ (head : String → Except String Response) (s : HttpClientState)
        (ops : List ClientOp) (k : String),
      probesForKey head s ops k ≤ 1) := by
  refine ⟨testCorsSupport_hit, ?_, ?_⟩
  · intro head s ops k h
    have hb := probesForKey_bound head ops s k
    rw [if_pos h] at hb
    omega
  · intro head s ops k
    have hb := probesForKey_bound head ops s k
    by_cases h : (lookupAssoc s.corsCache k).isSome
    · rw [if_pos h] at hb; omega
    · rw [if_neg h] at hb; exact hb

/-- C3 witness: a cached verdict for key `h/p` is returned without a
probe, and a probe-then-fetch trace on the same path (different query
strings) issues exactly one probe. -/
theorem corsProbe_at_most_once_witness :
    testCorsSupport (fun _ => .error "offline")
      ⟨[("h/p", ⟨false, true, [], none⟩)]⟩ "https://h/p" =
      (⟨false, true, [], none⟩, ⟨[("h/p", ⟨false, true, [], none⟩)]⟩, 0) ∧
    probesForKey (fun _ => .error "offline")
      ⟨[("h/p", ⟨false, true, [], none⟩)]⟩
      [.test "https://h/p?a=1", .fetchCors "https://h/p?b=2"] "h/p" = 0 :=
  ⟨corsProbe_at_most_once.1 (fun _ => .error "offline")
      ⟨[("h/p", ⟨false, true, [], none⟩)]⟩ "https://h/p"
      ⟨false, true, [], none⟩ (by decide),
    corsProbe_at_most_once.2.1 (fun _ => .error "offline")
      ⟨[("h/p", ⟨false, true, [], none⟩)]⟩
      [.test "https://h/p?a=1", .fetchCors "https://h/p?b=2"] "h/p"
      (by decide)⟩

/-- C4 counterexample: with endpoints A (health 50, priority 1) and B
(health 20, priority 1), A always failing and B succeeding, one
`ProxyService.fetch` call attempts A four times before B — the retry
recursion re-selects the proxy that already failed for this request
(A's health ends at 10, decremented four times) — refuting the claimed
exclusion of a failed proxy from all subsequent selections. -/
theorem proxyFetch_reselects_failed_cex :
    (proxyFetchAux
      (fun i => if i = 0 then .error "connection refused"
        else .ok ⟨true, 200, "OK", []⟩)
      0 3600000 "https://bucket.s3.amazonaws.com/data.csv" "GET" "h" 10
      ⟨[⟨"https://proxyA.test", none, 1, 50⟩,
        ⟨"https://proxyB.test", none, 1, 20⟩], []⟩ []).2.2 =
      [0, 0, 0, 0, 1] ∧
    (proxyFetchAux
      (fun i => if i = 0 then .error "connection refused"
        else .ok ⟨true, 200, "OK", []⟩)
      0 3600000 "https://bucket.s3.amazonaws.com/data.csv" "GET" "h" 10
      ⟨[⟨"https://proxyA.test", none, 1, 50⟩,
        ⟨"https://proxyB.test", none, 1, 20⟩], []⟩ []).2.1.proxyEndpoints =
      [⟨"https://proxyA.test", none, 1, 10⟩,
        ⟨"https://proxyB.test", none, 1, 20⟩] := by decide

/-- C4 (amended): when the selected proxy's request fails,
`ProxyService.fetch` sets its health to `max(0, health - 10)` and
re-enters the fetch with a *fresh* selection over all endpoints — the
failed proxy is excluded only from the check that some alternative
exists, so it may be re-selected while its health stays positive; when
every request fails, the call terminates in a typed `CloudStorageError`
(the code-less no-endpoint error, or `PROXY_FAILED`). -/
theorem proxyFetch_decay_and_rotation :
    (∀ (ps : List ProxyEndpoint) (i : Nat) (p : ProxyEndpoint),
      ps[i]? = some p →
      (decrementHealth ps i)[i]? =
        some { p with healthScore := max 0 (p.healthScore - 10) }) ∧
    (∀ (net : Nat → Except String Response),
      (∀ i r, net i = .ok r → r.ok = false) →
      ∀ (now cacheDuration : Nat) (url method headersRepr : String)
        (fuel : Nat) (s : ProxyState) (attempts : List Nat),
        lookupAssoc s.cache (getProxyCacheKey url method headersRepr) = none →
        sumHealthNat s.proxyEndpoints < fuel →
        ∃ e, (proxyFetchAux net now cacheDuration url method headersRepr
            fuel s attempts).1 = .error e ∧
          (e.code = none ∨ e.code = some "PROXY_FAILED")) :=
  ⟨decrementHealth_getElem,
    fun net hnet now cacheDuration url method headersRepr fuel s attempts =>
      proxyFetchAux_allFail net hnet now cacheDuration url method headersRepr
        fuel s attempts⟩

/-- C4 witness: the amended theorem applied to a single always-failing
endpoint. -/
theorem proxyFetch_decay_and_rotation_witness :
    ∃ e, (proxyFetchAux (fun _ => .error "refused") 0 1000 "https://h/x"
        "GET" "h" 6 ⟨[⟨"https://proxyA.test", none, 1, 5⟩], []⟩ []).1 =
      .error e ∧ (e.code = none ∨ e.code = some "PROXY_FAILED") :=
  proxyFetch_decay_and_rotation.2 (fun _ => .error "refused")
    (fun _ _ h => Except.noConfusion h) 0 1000 "https://h/x" "GET" "h" 6
    ⟨[⟨"https://proxyA.test", none, 1, 5⟩], []⟩ [] rfl (by decide)

/-- C9: proxy health scores stay non-negative across every
`ProxyService.fetch` run (the failure decay is floored at 0), and
selection never returns an endpoint whose health score is 0 — every
selected position holds an endpoint with strictly positive health. -/
theorem proxyHealth_invariant :
    (∀ (ps : List ProxyEndpoint) (exclude : List Nat) (i : Nat),
      selectProxyEndpoint ps exclude = some i →
      ∃ p, ps[i]? = some p ∧ 0 < p.healthScore) ∧
    (∀ (net : Nat → Except String Response) (now cacheDuration : Nat)
        (url method headersRepr : String) (fuel : Nat) (s : ProxyState)
        (attempts : List Nat),
      (∀ p ∈ s.proxyEndpoints, 0 ≤ p.healthScore) →
      ∀ p ∈ (proxyFetchAux net now cacheDuration url method headersRepr
          fuel s attempts).2.1.proxyEndpoints, 0 ≤ p.healthScore) :=
  ⟨fun ps exclude i h =>
    (selectProxyEndpoint_spec ps exclude i h).imp
      (fun _ hp => ⟨hp.1, hp.2.1⟩),
    fun net now cacheDuration url method headersRepr fuel s attempts h =>
      proxyFetchAux_health_nonneg net now cacheDuration url method
        headersRepr fuel s attempts h⟩

/-- C9 witness: the invariant applied to a concrete selection and a
concrete all-failing run. -/
theorem proxyHealth_invariant_witness :
    (∃ p, ([⟨"https://proxyA.test", none, 1, 50⟩,
        ⟨"https://proxyB.test", none, 1, 20⟩] :
        List ProxyEndpoint)[0]? = some p ∧ 0 < p.healthScore) ∧
    ∀ p ∈ (proxyFetchAux (fun _ => .error "refused") 0 1000 "https://h/x"
        "GET" "h" 6 ⟨[⟨"https://proxyA.test", none, 1, 5⟩], []⟩
        []).2.1.proxyEndpoints, 0 ≤ p.healthScore :=
  ⟨proxyHealth_invariant.1 [⟨"https://proxyA.test", none, 1, 50⟩,
      ⟨"https://proxyB.test", none, 1, 20⟩] [] 0 (by decide),
    proxyHealth_invariant.2 (fun _ => .error "refused") 0 1000 "https://h/x"
      "GET" "h" 6 ⟨[⟨"https://proxyA.test", none, 1, 5⟩], []⟩ []
      (by decide)⟩

/-- C10: when no credentials are configured for the provider detected
from a URL, `CloudStorageService.getAuthHeaders` returns the empty
header map without throwing (whatever the configured auth method,
including an unrecognized one), `AuthManager.getAuthHeaders` likewise
resolves with the empty map, and `getFile` proceeds to issue the request
with exactly the caller's headers and no authentication headers. -/
theorem getFile_no_credentials
    (providers : CloudProvider → Option ProviderConfig)
    (net : CorsHandlingOpt → List (String × String) → Except String Response)
    (url : String) (opts : FileAccessOptions)
    (h : hasCredentials (providers (detectProvider url)) = false) :
    csGetAuthHeaders (detectProvider url) (providers (detectProvider url)) =
      [] ∧
    (∀ (provider : CloudProvider) (cfg : Option ProviderConfig)
        (tokenInfo : Option TokenInfo) (refresh : Except String String)
        (now : Nat),
      authGetAuthHeaders none provider cfg tokenInfo refresh now = .ok []) ∧
    getFile providers net url opts =
      processFileResponse (detectProvider url) url
        (net (resolveFetchMode opts) opts.requestHeaders) := by
  have hcs : csGetAuthHeaders (detectProvider url)
      (providers (detectProvider url)) = [] := by
    unfold csGetAuthHeaders
    cases hp : providers (detectProvider url) with
    | none => rfl
    | some cfg =>
      unfold hasCredentials at h
      rw [hp] at h
      dsimp only at h ⊢
      cases hc : cfg.credentials with
      | none => rfl
      | some c => rw [hc] at h; simp at h
  refine ⟨hcs, fun provider cfg tokenInfo refresh now => rfl, ?_⟩
  unfold getFile
  dsimp only
  rw [hcs]
  simp

/-- C10 witness: the theorem applied to an unconfigured provider map and
a succeeding network. -/
theorem getFile_no_credentials_witness :
    csGetAuthHeaders (detectProvider "https://bucket.s3.amazonaws.com/d.csv")
      ((fun _ => none) (detectProvider "https://bucket.s3.amazonaws.com/d.csv")) = [] ∧
    (∀ (provider : CloudProvider) (cfg : Option ProviderConfig)
        (tokenInfo : Option TokenInfo) (refresh : Except String String)
        (now : Nat),
      authGetAuthHeaders none provider cfg tokenInfo refresh now = .ok []) ∧
    getFile (fun _ => none) (fun _ _ => .ok ⟨true, 200, "OK", []⟩)
        "https://bucket.s3.amazonaws.com/d.csv" ⟨[], none⟩ =
      processFileResponse
        (detectProvider "https://bucket.s3.amazonaws.com/d.csv")
        "https://bucket.s3.amazonaws.com/d.csv"
        ((fun _ _ => .ok ⟨true, 200, "OK", []⟩)
          (resolveFetchMode ⟨[], none⟩)
          (FileAccessOptions.requestHeaders ⟨[], none⟩)) :=
  getFile_no_credentials (fun _ => none)
    (fun _ _ => .ok ⟨true, 200, "OK", []⟩)
    "https://bucket.s3.amazonaws.com/d.csv" ⟨[], none⟩ (by decide)

end DataPrism
